import Mathlib

/-!
Shallow embedding of the core of `src/z80.c` (ZX Spectrum emulator) used to
settle the claims about the Z80 interpreter, the ULA port model and the tape
subsystem.  Machine integers are modelled as `Nat` with explicit `% 2^w`
truncation exactly where the C code truncates (assignments to `uint8_t` /
`uint16_t`).  The C `double` computations in the tape decoder and the pause
conversion are modelled with exact rationals `ℚ`; on every input considered
here the C double computation is exact, so the models agree with the source.
-/

namespace Spec2Proof

/-! ## Memory (`memory[65536]`, `readByte` / `writeByte` / `readWord` / `writeWord`) -/

/-- The 64 KiB memory, as a function from addresses to byte values. -/
abbrev Mem := Nat → Nat

/-- `readByte` from z80.c: reads the stored byte (the `uint16_t` parameter is
modelled by `% 65536`, the `uint8_t` cell content by `% 256`). -/
def readByte (m : Mem) (addr : Nat) : Nat := m (addr % 65536) % 256

/-- `writeByte` from z80.c: writes below `0x4000` (ROM) are ignored. -/
def writeByte (m : Mem) (addr : Nat) (val : Nat) : Mem :=
  if addr % 65536 < 0x4000 then m
  else fun a => if a = addr % 65536 then val % 256 else m a

/-- `readWord` from z80.c: little-endian 16-bit read `(hi << 8) | lo`. -/
def readWord (m : Mem) (addr : Nat) : Nat :=
  (readByte m (addr + 1)) <<< 8 ||| readByte m addr

/-- `writeWord` from z80.c: little-endian 16-bit write. -/
def writeWord (m : Mem) (addr : Nat) (val : Nat) : Mem :=
  writeByte (writeByte m addr (val % 256)) (addr + 1) ((val >>> 8) % 256)

/-! ## CPU state (`struct Z80`) -/

/-- The `Z80` structure from z80.c.  All fields are natural numbers; the
8-bit / 16-bit fields are kept reduced by the operations exactly where the C
code truncates. -/
structure Z80 where
  reg_A : Nat
  reg_F : Nat
  reg_B : Nat
  reg_C : Nat
  reg_D : Nat
  reg_E : Nat
  reg_H : Nat
  reg_L : Nat
  alt_reg_A : Nat
  alt_reg_F : Nat
  alt_reg_B : Nat
  alt_reg_C : Nat
  alt_reg_D : Nat
  alt_reg_E : Nat
  alt_reg_H : Nat
  alt_reg_L : Nat
  reg_I : Nat
  reg_R : Nat
  reg_IX : Nat
  reg_IY : Nat
  reg_SP : Nat
  reg_PC : Nat
  iff1 : Nat
  iff2 : Nat
  interruptMode : Nat
  ei_delay : Nat
  halted : Nat
  deriving DecidableEq, Repr

/-- Flag bit masks from z80.c (`FLAG_C` … `FLAG_S`). -/
def FLAG_C : Nat := 1
def FLAG_N : Nat := 2
def FLAG_PV : Nat := 4
def FLAG_H : Nat := 16
def FLAG_Z : Nat := 64
def FLAG_S : Nat := 128

/-- `get_BC` from z80.c. -/
def get_BC (cpu : Z80) : Nat := (cpu.reg_B <<< 8) ||| cpu.reg_C
/-- `get_DE` from z80.c. -/
def get_DE (cpu : Z80) : Nat := (cpu.reg_D <<< 8) ||| cpu.reg_E
/-- `get_HL` from z80.c. -/
def get_HL (cpu : Z80) : Nat := (cpu.reg_H <<< 8) ||| cpu.reg_L
/-- `set_BC` from z80.c. -/
def set_BC (cpu : Z80) (v : Nat) : Z80 :=
  { cpu with reg_B := (v >>> 8) % 256, reg_C := v % 256 }
/-- `set_DE` from z80.c. -/
def set_DE (cpu : Z80) (v : Nat) : Z80 :=
  { cpu with reg_D := (v >>> 8) % 256, reg_E := v % 256 }
/-- `set_HL` from z80.c. -/
def set_HL (cpu : Z80) (v : Nat) : Z80 :=
  { cpu with reg_H := (v >>> 8) % 256, reg_L := v % 256 }
/-- `set_IXh` from z80.c. -/
def set_IXh (cpu : Z80) (v : Nat) : Z80 :=
  { cpu with reg_IX := (cpu.reg_IX &&& 0x00FF) ||| ((v % 256) <<< 8) }
/-- `set_IXl` from z80.c. -/
def set_IXl (cpu : Z80) (v : Nat) : Z80 :=
  { cpu with reg_IX := (cpu.reg_IX &&& 0xFF00) ||| (v % 256) }
/-- `set_IYh` from z80.c. -/
def set_IYh (cpu : Z80) (v : Nat) : Z80 :=
  { cpu with reg_IY := (cpu.reg_IY &&& 0x00FF) ||| ((v % 256) <<< 8) }
/-- `set_IYl` from z80.c. -/
def set_IYl (cpu : Z80) (v : Nat) : Z80 :=
  { cpu with reg_IY := (cpu.reg_IY &&& 0xFF00) ||| (v % 256) }

/-- `set_flag` from z80.c: sets or clears flag bits `f` of `F`
(the clear uses the 8-bit complement `~f`). -/
def set_flag (cpu : Z80) (f : Nat) (c : Bool) : Z80 :=
  if c then { cpu with reg_F := cpu.reg_F ||| f }
  else { cpu with reg_F := cpu.reg_F &&& (255 ^^^ f) }

/-- `get_flag` from z80.c. -/
def get_flag (cpu : Z80) (f : Nat) : Nat := if cpu.reg_F &&& f ≠ 0 then 1 else 0

/-- `set_xy_flags` from z80.c: copies bits 3 and 5 of `value` into F. -/
def set_xy_flags (cpu : Z80) (value : Nat) : Z80 :=
  { cpu with reg_F := (cpu.reg_F &&& (255 ^^^ 0x28)) ||| (value &&& 0x28) }

/-- Number of set bits among the low 8 bits, mirroring the parity loop of
`set_flags_szp` in z80.c. -/
def popcount8 (r : Nat) : Nat :=
  (List.range 8).foldl (fun a i => a + ((r >>> i) &&& 1)) 0

/-- `set_flags_szp` from z80.c: S from bit 7, Z from zero, P/V from even
parity, X/Y from the result. -/
def set_flags_szp (cpu : Z80) (r : Nat) : Z80 :=
  let cpu := set_flag cpu FLAG_S (r &&& 0x80 ≠ 0)
  let cpu := set_flag cpu FLAG_Z (r = 0)
  let cpu := set_flag cpu FLAG_PV (popcount8 r % 2 = 0)
  set_xy_flags cpu r

/-- `cpu_rlc` from z80.c. -/
def cpu_rlc (cpu : Z80) (v : Nat) : Z80 × Nat :=
  let c := if v &&& 0x80 ≠ 0 then 1 else 0
  let r := ((v <<< 1) ||| c) % 256
  let cpu := set_flags_szp cpu r
  let cpu := set_flag cpu FLAG_H false
  let cpu := set_flag cpu FLAG_N false
  let cpu := set_flag cpu FLAG_C (c ≠ 0)
  (cpu, r)

/-- `cpu_rrc` from z80.c. -/
def cpu_rrc (cpu : Z80) (v : Nat) : Z80 × Nat :=
  let c := v &&& 0x01
  let r := ((v >>> 1) ||| (c <<< 7)) % 256
  let cpu := set_flags_szp cpu r
  let cpu := set_flag cpu FLAG_H false
  let cpu := set_flag cpu FLAG_N false
  let cpu := set_flag cpu FLAG_C (c ≠ 0)
  (cpu, r)

/-- `cpu_rl` from z80.c. -/
def cpu_rl (cpu : Z80) (v : Nat) : Z80 × Nat :=
  let oc := get_flag cpu FLAG_C
  let nc := if v &&& 0x80 ≠ 0 then 1 else 0
  let r := ((v <<< 1) ||| oc) % 256
  let cpu := set_flags_szp cpu r
  let cpu := set_flag cpu FLAG_H false
  let cpu := set_flag cpu FLAG_N false
  let cpu := set_flag cpu FLAG_C (nc ≠ 0)
  (cpu, r)

/-- `cpu_rr` from z80.c. -/
def cpu_rr (cpu : Z80) (v : Nat) : Z80 × Nat :=
  let oc := get_flag cpu FLAG_C
  let nc := v &&& 0x01
  let r := ((v >>> 1) ||| (oc <<< 7)) % 256
  let cpu := set_flags_szp cpu r
  let cpu := set_flag cpu FLAG_H false
  let cpu := set_flag cpu FLAG_N false
  let cpu := set_flag cpu FLAG_C (nc ≠ 0)
  (cpu, r)

/-- `cpu_sla` from z80.c. -/
def cpu_sla (cpu : Z80) (v : Nat) : Z80 × Nat :=
  let c := if v &&& 0x80 ≠ 0 then 1 else 0
  let r := (v <<< 1) % 256
  let cpu := set_flags_szp cpu r
  let cpu := set_flag cpu FLAG_H false
  let cpu := set_flag cpu FLAG_N false
  let cpu := set_flag cpu FLAG_C (c ≠ 0)
  (cpu, r)

/-- `cpu_sra` from z80.c. -/
def cpu_sra (cpu : Z80) (v : Nat) : Z80 × Nat :=
  let c := v &&& 0x01
  let r := ((v >>> 1) ||| (v &&& 0x80)) % 256
  let cpu := set_flags_szp cpu r
  let cpu := set_flag cpu FLAG_H false
  let cpu := set_flag cpu FLAG_N false
  let cpu := set_flag cpu FLAG_C (c ≠ 0)
  (cpu, r)

/-- `cpu_srl` from z80.c. -/
def cpu_srl (cpu : Z80) (v : Nat) : Z80 × Nat :=
  let c := v &&& 0x01
  let r := (v >>> 1) % 256
  let cpu := set_flags_szp cpu r
  let cpu := set_flag cpu FLAG_H false
  let cpu := set_flag cpu FLAG_N false
  let cpu := set_flag cpu FLAG_C (c ≠ 0)
  (cpu, r)

/-- `cpu_sll` from z80.c (undocumented: shift left, set bit 0). -/
def cpu_sll (cpu : Z80) (v : Nat) : Z80 × Nat :=
  let c := if v &&& 0x80 ≠ 0 then 1 else 0
  let r := ((v <<< 1) ||| 0x01) % 256
  let cpu := set_flags_szp cpu r
  let cpu := set_flag cpu FLAG_H false
  let cpu := set_flag cpu FLAG_N false
  let cpu := set_flag cpu FLAG_C (c ≠ 0)
  (cpu, r)

/-- `cpu_bit` from z80.c: Z and P/V from the tested bit, H set, N clear,
S iff `b = 7` and the bit is set, X/Y copied from the operand `v`
(the byte fetched from memory, in the indexed case). -/
def cpu_bit (cpu : Z80) (v : Nat) (b : Nat) : Z80 :=
  let m := 1 <<< b
  let cpu := set_flag cpu FLAG_Z (v &&& m = 0)
  let cpu := set_flag cpu FLAG_PV (v &&& m = 0)
  let cpu := set_flag cpu FLAG_H true
  let cpu := set_flag cpu FLAG_N false
  let cpu := set_flag cpu FLAG_S (b = 7 ∧ v &&& 0x80 ≠ 0)
  set_xy_flags cpu v

/-- `cpu_push` from z80.c: high byte first at `SP-1`, low byte at `SP-2`. -/
def cpu_push (cpu : Z80) (mem : Mem) (v : Nat) : Z80 × Mem :=
  let sp1 := (cpu.reg_SP + 65535) % 65536
  let mem := writeByte mem sp1 ((v >>> 8) &&& 0xFF)
  let sp2 := (sp1 + 65535) % 65536
  let mem := writeByte mem sp2 (v &&& 0xFF)
  ({ cpu with reg_SP := sp2 }, mem)

/-! ## `cpu_ddfd_cb_step` (DDCB/FDCB prefixed instructions) — claim C1 -/

/-- The signed displacement: `(int8_t)` cast of a byte. -/
def int8OfByte (d : Nat) : Int := if d % 256 < 128 then (d % 256 : Int) else (d % 256 : Int) - 256

/-- `cpu_ddfd_cb_step` from z80.c.  `indexVal` is the value of `*index_reg`
(IX or IY); the C function only reads it, register write-back happens through
`set_IXh` / `set_IYl` etc. on `cpu`. -/
def cpu_ddfd_cb_step (cpu : Z80) (mem : Mem) (indexVal : Nat) (is_ix : Bool) :
    Z80 × Mem × Nat :=
  let d := readByte mem cpu.reg_PC
  let cpu := { cpu with reg_PC := (cpu.reg_PC + 1) % 65536 }
  let op := readByte mem cpu.reg_PC
  let cpu := { cpu with reg_PC := (cpu.reg_PC + 1) % 65536 }
  let addr : Nat := (((indexVal : Int) + int8OfByte d).emod 65536).toNat
  let x := (op >>> 6) &&& 3
  let y := (op >>> 3) &&& 7
  let z := op &&& 7
  let operand := readByte mem addr
  if x = 1 then
    (cpu_bit cpu operand y, mem, 12)
  else
    let (cpu, result) :=
      if x = 0 then
        if y = 0 then cpu_rlc cpu operand
        else if y = 1 then cpu_rrc cpu operand
        else if y = 2 then cpu_rl cpu operand
        else if y = 3 then cpu_rr cpu operand
        else if y = 4 then cpu_sla cpu operand
        else if y = 5 then cpu_sra cpu operand
        else if y = 6 then cpu_sll cpu operand
        else cpu_srl cpu operand
      else if x = 2 then (cpu, operand &&& (255 ^^^ (1 <<< y)))
      else (cpu, (operand ||| (1 <<< y)) % 256)
    let mem := writeByte mem addr result
    if z = 6 then (cpu, mem, 15)
    else
      let cpu :=
        if z = 0 then { cpu with reg_B := result }
        else if z = 1 then { cpu with reg_C := result }
        else if z = 2 then { cpu with reg_D := result }
        else if z = 3 then { cpu with reg_E := result }
        else if z = 4 then (if is_ix then set_IXh cpu result else set_IYh cpu result)
        else if z = 5 then (if is_ix then set_IXl cpu result else set_IYl cpu result)
        else { cpu with reg_A := result }
      (cpu, mem, 12)

/-- A CPU state with all registers and flip-flops zero (as after `memset 0`
in `cpu_reset_state`, before the harness adjusts SP / IM). -/
def cpu0 : Z80 :=
  ⟨0, 0, 0, 0, 0, 0, 0, 0, 0, 0, 0, 0, 0, 0, 0, 0, 0, 0, 0, 0, 0, 0, 0, 0, 0, 0, 0⟩

/-- Memory for the C1 counterexample: at PC = 0 the displacement byte `0x00`,
then sub-opcode `0x6E` (BIT 5,(IX+d)); the byte at the effective address
`0x2800` is `0x00`. -/
def c1mem : Mem := fun a => if a = 1 then 0x6E else 0

/-! ## The `cpu_step` fetch/prefix header (lines 4643-4656 of z80.c) — claim C2

`cpu_step` first applies the pending EI delay, then (when not halted)
increments R with the refresh formula, fetches the opcode, and consumes any
run of DD/FD prefix bytes, bumping R by a plain 8-bit increment and adding
4 T-states for each. -/

/-- The base-opcode R update of `cpu_step` (and of `cpu_interrupt`):
`reg_R = (reg_R + 1) | (reg_R & 0x80)` stored into a `uint8_t`. -/
def baseRInc (r : Nat) : Nat := ((r + 1) ||| (r &&& 0x80)) % 256

/-- The per-prefix-byte R update of `cpu_step`: the plain `reg_R++`. -/
def pfxRInc (r : Nat) : Nat := (r + 1) % 256

/-- The prefix-consuming loop of `cpu_step`: while the fetched opcode is
0xDD or 0xFD, record the prefix, fetch the next byte, `reg_R++`, add 4
T-states.  The fuel bounds the loop; the C loop does not terminate when
every remaining byte is a prefix, which the model reports as `none`. -/
def fetchLoop (mem : Mem) : Nat → Z80 → Nat → Nat → Nat → Option (Nat × Nat × Nat × Z80)
  | 0, _, _, _, _ => none
  | fuel + 1, cpu, pfx, opcode, t =>
    if opcode = 0xDD ∨ opcode = 0xFD then
      let pfx := if opcode = 0xDD then 1 else 2
      let opcode2 := readByte mem cpu.reg_PC
      let cpu := { cpu with reg_PC := (cpu.reg_PC + 1) % 65536, reg_R := pfxRInc cpu.reg_R }
      fetchLoop mem fuel cpu pfx opcode2 (t + 4)
    else some (pfx, opcode, t, cpu)

/-- The fetch/prefix header of `cpu_step`: EI-delay handling, the halted
early return (modelled as `none`: no instruction is executed), the base
R increment and opcode fetch, then the prefix loop.  Returns the resolved
prefix (0/1/2), the base opcode, the T-states accumulated so far (4 plus 4
per prefix byte), and the updated CPU state. -/
def cpu_step_fetch (cpu : Z80) (mem : Mem) : Option (Nat × Nat × Nat × Z80) :=
  let cpu := if cpu.ei_delay ≠ 0 then { cpu with iff1 := 1, iff2 := 1, ei_delay := 0 } else cpu
  if cpu.halted ≠ 0 then none
  else
    let cpu := { cpu with reg_R := baseRInc cpu.reg_R }
    let opcode := readByte mem cpu.reg_PC
    let cpu := { cpu with reg_PC := (cpu.reg_PC + 1) % 65536 }
    fetchLoop mem 65536 cpu 0 opcode 4

/-- `isPfxChain k opcode pc`: starting from the already-fetched byte
`opcode` with PC at `pc`, the prefix loop runs exactly `k` iterations:
`k` DD/FD bytes are consumed and the byte after the run is not DD/FD. -/
def isPfxChain (mem : Mem) : Nat → Nat → Nat → Prop
  | 0, opcode, _ => ¬(opcode = 0xDD ∨ opcode = 0xFD)
  | k + 1, opcode, pc =>
    (opcode = 0xDD ∨ opcode = 0xFD) ∧ isPfxChain mem k (readByte mem pc) ((pc + 1) % 65536)

/-- Memory for the C2 counterexample and witness: all zero (NOP). -/
def c2mem : Mem := fun _ => 0

/-- CPU state for the C2 counterexample: R = 0x7F, about to execute NOP. -/
def c2cpu : Z80 := { cpu0 with reg_R := 0x7F }

/-! ## `cpu_ed_step`: the LDI/LDIR/LDD/LDDR cases (0xA0/0xB0/0xA8/0xB8) —
claim C3.  The other ED opcodes are out of the scope of the claims and the
model returns `none` for them. -/

/-- The flag epilogue shared verbatim by the four LD-block cases of
`cpu_ed_step` in z80.c: keep S/Z/C, clear H and N, set P/V iff the
decremented BC is non-zero, and copy X/Y from `sum = A + value`. -/
def ld_block_flag_update (cpu : Z80) (bc sum : Nat) : Z80 :=
  let preserved := cpu.reg_F &&& (FLAG_S ||| FLAG_Z ||| FLAG_C)
  let cpu := { cpu with reg_F := preserved }
  let cpu := set_flag cpu FLAG_H false
  let cpu := set_flag cpu FLAG_N false
  let cpu := set_flag cpu FLAG_PV (bc ≠ 0)
  set_xy_flags cpu sum

/-- The block-transfer cases of `cpu_ed_step` from z80.c: opcode 0xA0 (LDI),
0xB0 (LDIR), 0xA8 (LDD), 0xB8 (LDDR), translated branch by branch.  The
repeat forms rewind PC by 2 and report 17 T-states while BC remains
non-zero. -/
def cpu_ed_step (cpu : Z80) (mem : Mem) : Option (Z80 × Mem × Nat) :=
  let op := readByte mem cpu.reg_PC
  let cpu := { cpu with reg_PC := (cpu.reg_PC + 1) % 65536 }
  if op = 0xA0 ∨ op = 0xB0 then
    let hl := get_HL cpu
    let value := readByte mem hl
    let de := get_DE cpu
    let mem := writeByte mem de value
    let cpu := set_DE cpu ((de + 1) % 65536)
    let cpu := set_HL cpu ((hl + 1) % 65536)
    let bc := (get_BC cpu + 65535) % 65536
    let cpu := set_BC cpu bc
    let sum := (cpu.reg_A + value) % 256
    let cpu := ld_block_flag_update cpu bc sum
    if op = 0xB0 ∧ bc ≠ 0 then
      some ({ cpu with reg_PC := (cpu.reg_PC + 65534) % 65536 }, mem, 17)
    else some (cpu, mem, 12)
  else if op = 0xA8 ∨ op = 0xB8 then
    let hl := get_HL cpu
    let value := readByte mem hl
    let de := get_DE cpu
    let mem := writeByte mem de value
    let cpu := set_DE cpu ((de + 65535) % 65536)
    let cpu := set_HL cpu ((hl + 65535) % 65536)
    let bc := (get_BC cpu + 65535) % 65536
    let cpu := set_BC cpu bc
    let sum := (cpu.reg_A + value) % 256
    let cpu := ld_block_flag_update cpu bc sum
    if op = 0xB8 ∧ bc ≠ 0 then
      some ({ cpu with reg_PC := (cpu.reg_PC + 65534) % 65536 }, mem, 17)
    else some (cpu, mem, 12)
  else none

/-- CPU state for the C3 counterexample: A = 0, HL = 0x8000, DE = 0x9000,
BC = 2, about to execute LDI. -/
def c3cpu : Z80 := { cpu0 with reg_H := 0x80, reg_D := 0x90, reg_C := 2 }

/-- Memory for the C3 counterexample: opcode 0xA0 (LDI) at PC = 0 and the
transferred byte 0x02 at 0x8000. -/
def c3mem : Mem := fun a => if a = 0 then 0xA0 else if a = 0x8000 then 0x02 else 0

/-! ## `cpu_interrupt` (maskable interrupt acceptance) — claim C4 -/

/-- `cpu_interrupt` from z80.c: wake from HALT (advancing PC by one),
clear IFF1/IFF2, update R with the refresh formula, pick the vector and
T-state count from the interrupt mode (IM 2 reads the little-endian word at
`(I << 8) | data_bus`), push the current PC and jump to the vector. -/
def cpu_interrupt (cpu : Z80) (mem : Mem) (data_bus : Nat) : Z80 × Mem × Nat :=
  let cpu :=
    if cpu.halted ≠ 0 then { cpu with reg_PC := (cpu.reg_PC + 1) % 65536, halted := 0 }
    else cpu
  let cpu := { cpu with iff1 := 0, iff2 := 0 }
  let cpu := { cpu with reg_R := baseRInc cpu.reg_R }
  let vt : Nat × Nat :=
    if cpu.interruptMode = 0 ∨ cpu.interruptMode = 1 then (0x0038, 13)
    else if cpu.interruptMode = 2 then
      (readWord mem (((cpu.reg_I <<< 8) ||| data_bus) % 65536), 19)
    else (0x0038, 13)
  let (cpu, mem) := cpu_push cpu mem cpu.reg_PC
  ({ cpu with reg_PC := vt.1 }, mem, vt.2)

/-- CPU state for the C4 witness, the interrupt scenario of the spec:
I = 0x80, SP = 0xFFFE, PC = 0x1234, IM 2. -/
def c4cpu : Z80 :=
  { cpu0 with reg_I := 0x80, reg_SP := 0xFFFE, reg_PC := 0x1234, interruptMode := 2 }

/-- Memory for the C4 witness: the IM 2 vector word 0x5678 at 0x80FF. -/
def c4mem : Mem := fun a => if a = 0x80FF then 0x78 else if a = 0x8100 then 0x56 else 0

/-- CPU state for the C4 counterexample: R = 0x7F, IM 1, SP in RAM. -/
def c4rcpu : Z80 := { cpu0 with reg_R := 0x7F, reg_SP := 0xFFFE, interruptMode := 1 }

/-! ## `io_read` (ULA port read) — claim C5 -/

/-- `io_read` from z80.c.  `kb` is the `keyboard_matrix` array and
`tape_ear_state` the EAR level at sampling time (the C function first calls
`tape_update` / `tape_recorder_update`, which only refresh that level; it is
1 when no tape drives it).  An even port samples the keyboard rows whose
high-address bit is 0, overlays the EAR level on bit 6 and forces bits 5
and 7 high; an odd port reads 0xFF. -/
def io_read (port : Nat) (kb : Nat → Nat) (tape_ear_state : Bool) : Nat :=
  if port &&& 1 = 0 then
    let high_byte := (port >>> 8) &&& 0xFF
    let result := (List.range 8).foldl
      (fun result row => if high_byte &&& (1 <<< row) = 0 then result &&& kb row else result)
      0xFF
    let result := if tape_ear_state then result ||| 0x40 else result &&& (255 ^^^ 0x40)
    result ||| 0xA0
  else 0xFF

/-! ## ULA write queue processing (`ula_process_port_events`) — claim C6 -/

/-- `UlaWriteEvent` from z80.c: a queued 0xFE write with its timestamp. -/
structure UlaWriteEvent where
  value : Nat
  t_state : Nat
  deriving DecidableEq, Repr

/-- `ula_process_port_events` from z80.c, processing the queued writes in
order.  The returned quadruple is (final `border_color_idx`, final
`beeper_state`, the `beeper_push_event` calls made, the
`tape_recorder_handle_mic` calls made); the queue itself is cleared
(`ula_write_count = 0`), which the list-state model expresses by consuming
the queue. -/
def ula_process_port_events : List UlaWriteEvent → Nat → Nat →
    Nat × Nat × List (Nat × Nat) × List (Nat × Nat)
  | [], border, beeper_state => (border, beeper_state, [], [])
  | e :: rest, _border, beeper_state =>
    let border := e.value &&& 0x07
    let new_beeper_state := (e.value >>> 4) &&& 0x01
    let (beeper_state, beeper_calls) :=
      if new_beeper_state ≠ beeper_state then
        (new_beeper_state, [(e.t_state, new_beeper_state)])
      else (beeper_state, ([] : List (Nat × Nat)))
    let mic_level := (e.value >>> 3) &&& 0x01
    let (border2, beeper2, bs, ms) := ula_process_port_events rest border beeper_state
    (border2, beeper2, beeper_calls ++ bs, (e.t_state, mic_level) :: ms)

/-- Modelled from the spec: the beeper events a stream of (timestamp, new
level) pairs should produce — one event exactly when the level differs from
the current one.  Used as the specification side for claim C6. -/
def beeperTogglesSpec : Nat → List (Nat × Nat) → List (Nat × Nat)
  | _, [] => []
  | level, (t, nl) :: rest =>
    if nl ≠ level then (t, nl) :: beeperTogglesSpec nl rest
    else beeperTogglesSpec level rest

/-! ## ULA write queue timestamping (`ula_queue_port_value`) and the
port-writing instruction paths of `cpu_step` — claim C7 -/

/-- The timestamp chosen by `ula_queue_port_value` in z80.c: the
instruction's base T-state plus the current in-instruction progress when
the progress pointer is set (always, during `cpu_step`), else
`total_t_states`; clamped forward to the last queued timestamp. -/
def ula_event_time (q : List UlaWriteEvent) (base : Nat) (progress : Option Nat)
    (now : Nat) : Nat :=
  let event_t :=
    match progress with
    | some p => base + p
    | none => now
  match q.getLast? with
  | some prev => if event_t < prev.t_state then prev.t_state else event_t
  | none => event_t

/-- `ula_queue_port_value` from z80.c: append the write with its (clamped)
timestamp to the 64-slot queue, dropping the oldest entry on overflow. -/
def ula_queue_port_value (q : List UlaWriteEvent) (base : Nat) (progress : Option Nat)
    (now : Nat) (value : Nat) : List UlaWriteEvent :=
  let event_t := ula_event_time q base progress now
  if q.length < 64 then q ++ [⟨value, event_t⟩]
  else q.drop 1 ++ [⟨value, event_t⟩]

/-- `io_write` from z80.c (even ports reach the ULA queue), paired with the
trace of events actually enqueued by this call.  During `cpu_step` the
progress pointer is set and the instruction base equals `total_t_states`,
so `base = now`. -/
def io_write_tr (port value : Nat) (q em : List UlaWriteEvent) (now p : Nat) :
    List UlaWriteEvent × List UlaWriteEvent :=
  if port &&& 1 = 0 then
    (ula_queue_port_value q now (some p) now value,
     em ++ [⟨value, ula_event_time q now (some p) now⟩])
  else (q, em)

/-- The OUT (C),r cases (`0x41/0x49/…/0x79` of `cpu_ed_step`):
`io_write(BC, r)` and 8 further T-states. -/
def cpu_ed_out (cpu : Z80) (mem : Mem) (q : List UlaWriteEvent) (now t r : Nat) :
    Z80 × Mem × List UlaWriteEvent × List UlaWriteEvent × Nat :=
  let qem := io_write_tr (get_BC cpu) r q [] now t
  (cpu, mem, qem.1, qem.2, t + 8)

/-- The port-writing instruction paths of `cpu_step` from z80.c, with the
queue state threaded explicitly and the enqueued events also returned as a
trace.  `now` is `total_t_states`, which `cpu_step` records as
`ula_instruction_base_tstate`.  All opcodes that never call `io_write` on
the ULA (everything except OUT (n),A, OUT (C),r and OUTI/OTIR/OUTD/OTDR)
are outside the model and return `none`; they enqueue nothing. -/
def cpu_step_out (cpu : Z80) (mem : Mem) (q : List UlaWriteEvent) (now : Nat) :
    Option (Z80 × Mem × List UlaWriteEvent × List UlaWriteEvent × Nat) :=
  match cpu_step_fetch cpu mem with
  | none => none
  | some (_, opcode, t, cpu) =>
    if opcode = 0xD3 then
      let p := readByte mem cpu.reg_PC
      let cpu := { cpu with reg_PC := (cpu.reg_PC + 1) % 65536 }
      let port := ((cpu.reg_A <<< 8) ||| p) % 65536
      let qem := io_write_tr port cpu.reg_A q [] now t
      some (cpu, mem, qem.1, qem.2, t + 7)
    else if opcode = 0xED then
      let op2 := readByte mem cpu.reg_PC
      let cpu := { cpu with reg_PC := (cpu.reg_PC + 1) % 65536 }
      if op2 = 0x41 then some (cpu_ed_out cpu mem q now t cpu.reg_B)
      else if op2 = 0x49 then some (cpu_ed_out cpu mem q now t cpu.reg_C)
      else if op2 = 0x51 then some (cpu_ed_out cpu mem q now t cpu.reg_D)
      else if op2 = 0x59 then some (cpu_ed_out cpu mem q now t cpu.reg_E)
      else if op2 = 0x61 then some (cpu_ed_out cpu mem q now t cpu.reg_H)
      else if op2 = 0x69 then some (cpu_ed_out cpu mem q now t cpu.reg_L)
      else if op2 = 0x71 then some (cpu_ed_out cpu mem q now t 0)
      else if op2 = 0x79 then some (cpu_ed_out cpu mem q now t cpu.reg_A)
      else if op2 = 0xA3 ∨ op2 = 0xB3 ∨ op2 = 0xAB ∨ op2 = 0xBB then
        let qem := io_write_tr (get_BC cpu) (readByte mem (get_HL cpu)) q [] now t
        let cpu := { cpu with reg_B := (cpu.reg_B + 255) % 256 }
        let cpu :=
          if op2 = 0xA3 ∨ op2 = 0xB3 then set_HL cpu ((get_HL cpu + 1) % 65536)
          else set_HL cpu ((get_HL cpu + 65535) % 65536)
        if (op2 = 0xB3 ∨ op2 = 0xBB) ∧ cpu.reg_B ≠ 0 then
          some ({ cpu with reg_PC := (cpu.reg_PC + 65534) % 65536 }, mem, qem.1, qem.2, t + 13)
        else some (cpu, mem, qem.1, qem.2, t + 8)
      else none
    else none

/-- Memory for the C7 witness: OUT (0xFE),A at PC = 0. -/
def c7mem : Mem := fun a => if a = 0 then 0xD3 else if a = 1 then 0xFE else 0

/-- CPU state for the C7 witness: A = 0x10, about to execute OUT (0xFE),A. -/
def c7cpu : Z80 := { cpu0 with reg_A := 0x10 }

/-! ### Tape waveform synthesis (C8)

Embedding of the tape constants (src/z80.c lines 35, 62-68), of
tape_pause_to_tstates (752-761), tape_waveform_add_pulse (909-928) and
tape_generate_waveform_from_image (930-1002).  A TapeBlock holds the payload
bytes and the trailing pause in milliseconds; a waveform is the list of pulse
durations appended by tape_waveform_add_pulse (the C struct also records
initial_level = 1 and sample_rate = 0, constants not at issue in the claims).
C doubles are modelled by exact rationals: the double computation
pause_ms / 1000.0 * 3500000.0 stays within 2^53 for every uint32 pause_ms, and
its exact value is the integer pause_ms * 3500, so rounding adds less than 1/2
and the final truncation of tstates + 0.5 yields exactly pause_ms * 3500. -/

def CPU_CLOCK_HZ : ℚ := 3500000

def TAPE_PILOT_PULSE_TSTATES : Nat := 2168

def TAPE_SYNC_FIRST_PULSE_TSTATES : Nat := 667

def TAPE_SYNC_SECOND_PULSE_TSTATES : Nat := 735

def TAPE_BIT0_PULSE_TSTATES : Nat := 855

def TAPE_BIT1_PULSE_TSTATES : Nat := 1710

def TAPE_HEADER_PILOT_COUNT : Nat := 8063

def TAPE_DATA_PILOT_COUNT : Nat := 3223

/-- One TAP block: payload bytes and the pause that follows the block. -/
structure TapeBlock where
  data : List Nat
  pause_ms : Nat
deriving DecidableEq, Repr

/-- tape_pause_to_tstates (z80.c 752-761): pause in ms to T-states, computed
through double arithmetic (modelled exactly in ℚ), rounding to nearest by
truncating tstates + 0.5. -/
def tape_pause_to_tstates (pause_ms : Nat) : Nat :=
  if pause_ms = 0 then 0
  else
    let tstates : ℚ := ((pause_ms : ℚ) / 1000) * CPU_CLOCK_HZ
    if tstates ≤ 0 then 0 else (⌊tstates + 1/2⌋).toNat

/-- tape_waveform_add_pulse (z80.c 909-928): a zero duration is skipped, a
duration above UINT32_MAX is stored as UINT32_MAX. -/
def tape_waveform_add_pulse (duration : Nat) : List Nat :=
  if duration = 0 then [] else [min duration 4294967295]

/-- The pilot loop of tape_generate_waveform_from_image (z80.c 951-960): each
pilot pulse is 2168 T-states, with any pending silence folded into the first
pulse emitted.  Returns the emitted pulses and the remaining pending silence
(the input pending when the count is zero). -/
def emitPilots : Nat → Nat → List Nat × Nat
  | 0, pending => ([], pending)
  | n + 1, pending =>
    let rest := emitPilots n 0
    (tape_waveform_add_pulse (TAPE_PILOT_PULSE_TSTATES + pending) ++ rest.1, rest.2)

/-- The bit loop of tape_generate_waveform_from_image (z80.c 980-994): for
each bit (mask walking from 0x80 down) two pulses of 1710 T-states for a one
bit and 855 for a zero bit are emitted; pending silence is folded into the
shared pulse variable, hence into both half-pulses of that bit. -/
def emitBitsLoop (value : Nat) : Nat → Nat → Nat → List Nat × Nat
  | 0, _, pending => ([], pending)
  | n + 1, mask, pending =>
    let pulse := (if value &&& mask ≠ 0 then TAPE_BIT1_PULSE_TSTATES
                  else TAPE_BIT0_PULSE_TSTATES) + pending
    let rest := emitBitsLoop value n (mask >>> 1) 0
    (tape_waveform_add_pulse pulse ++ tape_waveform_add_pulse pulse ++ rest.1, rest.2)

/-- One payload byte: its 8 bits MSB-first (z80.c 977-994). -/
def emitByte (value pending : Nat) : List Nat × Nat :=
  emitBitsLoop value 8 0x80 pending

/-- The byte loop of tape_generate_waveform_from_image (z80.c 977-995). -/
def emitDataBytes : List Nat → Nat → List Nat × Nat
  | [], pending => ([], pending)
  | b :: rest, pending =>
    let e := emitByte b pending
    let r := emitDataBytes rest e.2
    (e.1 ++ r.1, r.2)

/-- One block body of tape_generate_waveform_from_image (z80.c 944-999):
pilot count 8063 when the first payload byte is 0x00 else 3223, pilots, the
667 sync pulse (folding any silence still pending), the 735 sync pulse, the
data bits (pending silence is zero there: the sync-1 fold cleared it), and
finally the block pause is added onto the pending silence. -/
def emitBlock (block : TapeBlock) (pending : Nat) : List Nat × Nat :=
  let pilot_count := if block.data.head? = some 0 then TAPE_HEADER_PILOT_COUNT
                     else TAPE_DATA_PILOT_COUNT
  let p := emitPilots pilot_count pending
  let d := emitDataBytes block.data 0
  (p.1 ++ tape_waveform_add_pulse (TAPE_SYNC_FIRST_PULSE_TSTATES + p.2)
      ++ tape_waveform_add_pulse TAPE_SYNC_SECOND_PULSE_TSTATES ++ d.1,
   d.2 + tape_pause_to_tstates block.pause_ms)

/-- The block loop of tape_generate_waveform_from_image (z80.c 943-999),
threading pending_silence from block to block; the pause of the final block is
never emitted. -/
def synthBlocks : List TapeBlock → Nat → List Nat
  | [], _ => []
  | b :: rest, pending =>
    let e := emitBlock b pending
    e.1 ++ synthBlocks rest e.2

/-- tape_generate_waveform_from_image (z80.c 930-1002) as the list of pulse
durations it appends (initial pending_silence = 0). -/
def tape_generate_waveform_from_image (blocks : List TapeBlock) : List Nat :=
  synthBlocks blocks 0

/-! Spec-side description of the waveform (modelled from the words of the
claim, for the refinement comparison). -/

/-- Spec side: the 16 data pulses of one byte, MSB-first, two equal pulses per
bit, 855 T-states for a 0 bit and 1710 for a 1 bit. -/
def specBytePulses (v : Nat) : List Nat :=
  (List.range 8).flatMap fun i =>
    [if v.testBit (7 - i) then 1710 else 855, if v.testBit (7 - i) then 1710 else 855]

/-- Spec side: the data pulses of a payload. -/
def specDataPulses (data : List Nat) : List Nat :=
  data.flatMap specBytePulses

/-- Spec side: fold a pause into the following pulse. -/
def foldHead (p : Nat) : List Nat → List Nat
  | [] => []
  | x :: xs => (x + p) :: xs

/-- Spec side: per block, pilots (8063 of 2168 T-states when the first byte is
0x00, else 3223), sync pulses 667 and 735, the data pulses, with the previous
block's pause (pause_ms milliseconds = pause_ms * 3500 T-states) folded into
the first following pulse. -/
def waveformSpecGo : List TapeBlock → Nat → List Nat
  | [], _ => []
  | b :: rest, pending =>
    foldHead pending
        (List.replicate (if b.data.head? = some 0 then 8063 else 3223) 2168
          ++ 667 :: 735 :: specDataPulses b.data)
      ++ waveformSpecGo rest (b.pause_ms * 3500)

/-- Spec side: the whole waveform. -/
def waveformSpec (blocks : List TapeBlock) : List Nat :=
  waveformSpecGo blocks 0

/-! ### Tape pulse decoding (C9)

Embedding of tape_duration_tolerance and tape_duration_matches (z80.c
2222-2236) and tape_decode_pulses_to_block (z80.c 3386-3555).  Durations and
references are nonnegative throughout (the C casts (int)duration are exact for
durations below 2^31, which covers every pulse handled here), so references
and tolerances live in Nat and differences are taken in Int with natAbs
mirroring abs.  The C double scale is modelled exactly in ℚ; on the pilot
runs at issue (every sample 2168) the double computation is exact as well. -/

/-- tape_duration_tolerance (z80.c 2222-2228): a quarter of the reference,
at least 200. -/
def tape_duration_tolerance (reference : Nat) : Nat :=
  let tolerance := reference / 4
  if tolerance < 200 then 200 else tolerance

/-- tape_duration_matches (z80.c 2230-2236): absolute difference within the
tolerance. -/
def tape_duration_matches (duration reference tolerance : Nat) : Bool :=
  decide (((duration : Int) - (reference : Int)).natAbs ≤ tolerance)

/-- A pulse that matches the 2168 T-state pilot reference (z80.c 3395-3397). -/
def pilotMatch (d : Nat) : Bool :=
  tape_duration_matches d TAPE_PILOT_PULSE_TSTATES
    (tape_duration_tolerance TAPE_PILOT_PULSE_TSTATES)

/-- The pilot search loop of tape_decode_pulses_to_block (z80.c 3391-3417):
skip pulses until a pilot-like run of at least 100 pulses is found, returning
the run and the remaining pulses.  The fuel (one unit per examined pulse)
mirrors the bound count - search_index that makes the C while loop stop. -/
def findPilotRunAux : Nat → List Nat → Option (List Nat × List Nat)
  | 0, _ => none
  | _, [] => none
  | fuel + 1, d :: rest =>
    if pilotMatch d then
      let run := List.takeWhile pilotMatch (d :: rest)
      if 100 ≤ run.length then some (run, List.dropWhile pilotMatch (d :: rest))
      else findPilotRunAux fuel (List.dropWhile pilotMatch (d :: rest))
    else findPilotRunAux fuel rest

def findPilotRun (pulses : List Nat) : Option (List Nat × List Nat) :=
  findPilotRunAux pulses.length pulses

/-- The scale estimation of tape_decode_pulses_to_block (z80.c 3423-3445):
average of at most 4096 pilot samples over the 2168 reference, clamped to
[0.5, 2.0]; 1 when the average is not positive. -/
def decodeScale (run : List Nat) : ℚ :=
  if 0 < run.length then
    let sample_count := if 4096 < run.length then 4096 else run.length
    let sample_count := if sample_count = 0 then 1 else sample_count
    let pilot_sum := (run.take sample_count).sum
    let pilot_average : ℚ := (pilot_sum : ℚ) / (sample_count : ℚ)
    if 0 < pilot_average then
      let sc := pilot_average / (TAPE_PILOT_PULSE_TSTATES : ℚ)
      if sc < 1 / 2 then 1 / 2 else if 2 < sc then 2 else sc
    else 1
  else 1

/-- The reference scaling of tape_decode_pulses_to_block (z80.c 3447-3454,
3492-3499): base times scale rounded to nearest, the unscaled base when that
is not positive (C truncates toward zero; the two differ only on (-1, 0),
where both land in the <= 0 fallback). -/
def scaleReference (base : Nat) (sc : ℚ) : Nat :=
  let r := ⌊(base : ℚ) * sc + 1 / 2⌋
  if r ≤ 0 then base else r.toNat

/-- The pulse-pair classification of the byte loop (z80.c 3515-3542): direct
match against both references first, then the pair-sum tie-break, then the
score tie-break; none when every test fails (the C code frees and returns 0). -/
def classifyPair (bit0_reference bit1_reference d1 d2 : Nat) : Option Bool :=
  let bit0_tolerance := tape_duration_tolerance bit0_reference
  let bit1_tolerance := tape_duration_tolerance bit1_reference
  let bit0_pair_reference := bit0_reference * 2
  let bit1_pair_reference := bit1_reference * 2
  let bit0_pair_tolerance := tape_duration_tolerance bit0_pair_reference
  let bit1_pair_tolerance := tape_duration_tolerance bit1_pair_reference
  let is_one := tape_duration_matches d1 bit1_reference bit1_tolerance &&
                tape_duration_matches d2 bit1_reference bit1_tolerance
  let is_zero := tape_duration_matches d1 bit0_reference bit0_tolerance &&
                 tape_duration_matches d2 bit0_reference bit0_tolerance
  if is_one || is_zero then some is_one
  else
    let pair_sum : Int := (d1 : Int) + (d2 : Int)
    let sum_diff_one := (pair_sum - (bit1_pair_reference : Int)).natAbs
    let sum_diff_zero := (pair_sum - (bit0_pair_reference : Int)).natAbs
    if sum_diff_one ≤ bit1_pair_tolerance ∧ sum_diff_one < sum_diff_zero then some true
    else if sum_diff_zero ≤ bit0_pair_tolerance then some false
    else
      let score_one := ((d1 : Int) - (bit1_reference : Int)).natAbs +
                       ((d2 : Int) - (bit1_reference : Int)).natAbs
      let score_zero := ((d1 : Int) - (bit0_reference : Int)).natAbs +
                        ((d2 : Int) - (bit0_reference : Int)).natAbs
      if score_one < score_zero ∧ score_one ≤ bit1_tolerance * 4 then some true
      else if score_zero ≤ score_one ∧ score_zero ≤ bit0_tolerance * 4 then some false
      else none

/-- The bit loop of one byte (z80.c 3509-3546), with the count of remaining
bits as the recursion counter: with r + 1 bits remaining the C bit index is
7 - r, so a one bit ORs in 1 <<< r.  none when a pair cannot be classified or
the pulses run out (the C index >= data_limit check). -/
def decodeByte (bit0_reference bit1_reference : Nat) :
    Nat → Nat → List Nat → Option (Nat × List Nat)
  | value, 0, rest => some (value, rest)
  | value, r + 1, d1 :: d2 :: rest =>
    match classifyPair bit0_reference bit1_reference d1 d2 with
    | none => none
    | some b =>
      decodeByte bit0_reference bit1_reference
        (if b then value ||| 1 <<< r else value) r rest
  | _, _ + 1, _ => none

/-- The byte loop of tape_decode_pulses_to_block (z80.c 3508-3549). -/
def decodeBytes (bit0_reference bit1_reference : Nat) :
    Nat → List Nat → Option (List Nat)
  | 0, _ => some []
  | n + 1, rest =>
    match decodeByte bit0_reference bit1_reference 0 8 rest with
    | none => none
    | some (v, rest2) =>
      (decodeBytes bit0_reference bit1_reference n rest2).map (fun l => v :: l)

/-- tape_decode_pulses_to_block (z80.c 3386-3555): find a pilot run of at
least 100 pulses, estimate the scale, check the two sync pulses, trim the
remaining pulses to an even count and then to a whole number of 8-bit-pair
bytes, and decode the bytes; some (data, pause_ms) on success. -/
def tape_decode_pulses_to_block (pulses : List Nat) (pause_ms : Nat) :
    Option (List Nat × Nat) :=
  if pulses = [] then none
  else
    match findPilotRun pulses with
    | none => none
    | some (run, after) =>
      match after with
      | s1 :: s2 :: restAll =>
        let scale := decodeScale run
        let sync1_reference := scaleReference TAPE_SYNC_FIRST_PULSE_TSTATES scale
        let sync2_reference := scaleReference TAPE_SYNC_SECOND_PULSE_TSTATES scale
        if tape_duration_matches s1 sync1_reference
              (tape_duration_tolerance sync1_reference) &&
            tape_duration_matches s2 sync2_reference
              (tape_duration_tolerance sync2_reference) then
          let avail := restAll.length
          let availEven := avail - avail % 2
          if availEven = 0 then none
          else
            let bit_pairs := availEven / 2
            let keptPairs := bit_pairs - bit_pairs % 8
            if keptPairs = 0 then none
            else
              let byte_count := keptPairs / 8
              let bit0_reference := scaleReference TAPE_BIT0_PULSE_TSTATES scale
              let bit1_reference := scaleReference TAPE_BIT1_PULSE_TSTATES scale
              (decodeBytes bit0_reference bit1_reference byte_count
                  (restAll.take (keptPairs * 2))).map (fun l => (l, pause_ms))
        else none
      | _ => none

/-! ### TZX loading (C10)

Embedding of tape_load_tzx (z80.c 1062-1138) over the file's byte stream.
Each failure path is one fprintf followed by return 0; the error type records
which message fires and exactly the varying data the message interpolates
besides the file path: the unsupported-block message
"Unsupported TZX block type 0x%02X in '%s'" interpolates only the block id
and the path, so unsupportedBlock carries the id and nothing else. -/

inductive TzxError where
  | headerTruncated
  | badSignature
  | blockTruncated
  | payloadTruncated
  | unsupportedBlock (id : Nat)
deriving DecidableEq, Repr

/-- The 8 signature bytes "ZXTape!\x1A" checked by memcmp (z80.c 1076). -/
def tzxSignature : List Nat := [0x5A, 0x58, 0x54, 0x61, 0x70, 0x65, 0x21, 0x1A]

/-- The block loop of tape_load_tzx (z80.c 1082-1134): end of input is
success; block id 0x10 reads a 16-bit little-endian pause, a 16-bit
little-endian length and that many payload bytes; any other id fails with the
unsupported-block diagnostic carrying that id.  The fuel (one unit per block,
each consuming at least one byte) mirrors the EOF bound on the C while
loop; it is called with the remaining byte count, which never runs out. -/
def tzxBlocksAux : Nat → List Nat → Except TzxError (List TapeBlock)
  | _, [] => .ok []
  | 0, _ :: _ => .error .blockTruncated
  | fuel + 1, id :: rest =>
    if id = 0x10 then
      match rest with
      | p0 :: p1 :: l0 :: l1 :: rest2 =>
        let block_length := l0 ||| (l1 <<< 8)
        if rest2.length < block_length then .error .payloadTruncated
        else
          match tzxBlocksAux fuel (rest2.drop block_length) with
          | .error e => .error e
          | .ok bs => .ok (⟨rest2.take block_length, p0 ||| (p1 <<< 8)⟩ :: bs)
      | _ => .error .blockTruncated
    else .error (.unsupportedBlock id)

/-- tape_load_tzx (z80.c 1062-1138) on the byte stream of the file: a 10-byte
header whose first 8 bytes must be the signature, then the block loop. -/
def tape_load_tzx (bytes : List Nat) : Except TzxError (List TapeBlock) :=
  if bytes.length < 10 then .error .headerTruncated
  else if bytes.take 8 = tzxSignature then
    tzxBlocksAux (bytes.drop 10).length (bytes.drop 10)
  else .error .badSignature

/-- Spec-side canonical encoding of one standard-speed data block: id 0x10,
pause and length little-endian, then the payload. -/
def tzxEncodeBlock (b : TapeBlock) : List Nat :=
  0x10 :: b.pause_ms % 256 :: (b.pause_ms >>> 8) % 256 ::
    b.data.length % 256 :: (b.data.length >>> 8) % 256 :: b.data

/-- Spec-side canonical encoding of a block list. -/
def tzxEncodeBlocks (bs : List TapeBlock) : List Nat :=
  bs.flatMap tzxEncodeBlock

/-- Payload of the C8 witness: a 19-byte header block (flag byte 0x00). -/
def c8data : List Nat :=
  [0x00, 0x00, 0x48, 0x45, 0x4C, 0x4C, 0x4F, 0x20, 0x20, 0x20,
   0x20, 0x00, 0x1B, 0x00, 0x0A, 0x80, 0x00, 0x1B, 0xEF]

/-! Precomputed bit values of the byte-sized mask constants appearing in the
flag-manipulation code, used by the bitwise proofs below. -/

@[simp] lemma tbit_1_0 : Nat.testBit 1 0 = true := by decide
@[simp] lemma tbit_1_1 : Nat.testBit 1 1 = false := by decide
@[simp] lemma tbit_1_2 : Nat.testBit 1 2 = false := by decide
@[simp] lemma tbit_1_3 : Nat.testBit 1 3 = false := by decide
@[simp] lemma tbit_1_4 : Nat.testBit 1 4 = false := by decide
@[simp] lemma tbit_1_5 : Nat.testBit 1 5 = false := by decide
@[simp] lemma tbit_1_6 : Nat.testBit 1 6 = false := by decide
@[simp] lemma tbit_1_7 : Nat.testBit 1 7 = false := by decide
@[simp] lemma tbit_2_0 : Nat.testBit 2 0 = false := by decide
@[simp] lemma tbit_2_1 : Nat.testBit 2 1 = true := by decide
@[simp] lemma tbit_2_2 : Nat.testBit 2 2 = false := by decide
@[simp] lemma tbit_2_3 : Nat.testBit 2 3 = false := by decide
@[simp] lemma tbit_2_4 : Nat.testBit 2 4 = false := by decide
@[simp] lemma tbit_2_5 : Nat.testBit 2 5 = false := by decide
@[simp] lemma tbit_2_6 : Nat.testBit 2 6 = false := by decide
@[simp] lemma tbit_2_7 : Nat.testBit 2 7 = false := by decide
@[simp] lemma tbit_4_0 : Nat.testBit 4 0 = false := by decide
@[simp] lemma tbit_4_1 : Nat.testBit 4 1 = false := by decide
@[simp] lemma tbit_4_2 : Nat.testBit 4 2 = true := by decide
@[simp] lemma tbit_4_3 : Nat.testBit 4 3 = false := by decide
@[simp] lemma tbit_4_4 : Nat.testBit 4 4 = false := by decide
@[simp] lemma tbit_4_5 : Nat.testBit 4 5 = false := by decide
@[simp] lemma tbit_4_6 : Nat.testBit 4 6 = false := by decide
@[simp] lemma tbit_4_7 : Nat.testBit 4 7 = false := by decide
@[simp] lemma tbit_8_0 : Nat.testBit 8 0 = false := by decide
@[simp] lemma tbit_8_1 : Nat.testBit 8 1 = false := by decide
@[simp] lemma tbit_8_2 : Nat.testBit 8 2 = false := by decide
@[simp] lemma tbit_8_3 : Nat.testBit 8 3 = true := by decide
@[simp] lemma tbit_8_4 : Nat.testBit 8 4 = false := by decide
@[simp] lemma tbit_8_5 : Nat.testBit 8 5 = false := by decide
@[simp] lemma tbit_8_6 : Nat.testBit 8 6 = false := by decide
@[simp] lemma tbit_8_7 : Nat.testBit 8 7 = false := by decide
@[simp] lemma tbit_16_0 : Nat.testBit 16 0 = false := by decide
@[simp] lemma tbit_16_1 : Nat.testBit 16 1 = false := by decide
@[simp] lemma tbit_16_2 : Nat.testBit 16 2 = false := by decide
@[simp] lemma tbit_16_3 : Nat.testBit 16 3 = false := by decide
@[simp] lemma tbit_16_4 : Nat.testBit 16 4 = true := by decide
@[simp] lemma tbit_16_5 : Nat.testBit 16 5 = false := by decide
@[simp] lemma tbit_16_6 : Nat.testBit 16 6 = false := by decide
@[simp] lemma tbit_16_7 : Nat.testBit 16 7 = false := by decide
@[simp] lemma tbit_32_0 : Nat.testBit 32 0 = false := by decide
@[simp] lemma tbit_32_1 : Nat.testBit 32 1 = false := by decide
@[simp] lemma tbit_32_2 : Nat.testBit 32 2 = false := by decide
@[simp] lemma tbit_32_3 : Nat.testBit 32 3 = false := by decide
@[simp] lemma tbit_32_4 : Nat.testBit 32 4 = false := by decide
@[simp] lemma tbit_32_5 : Nat.testBit 32 5 = true := by decide
@[simp] lemma tbit_32_6 : Nat.testBit 32 6 = false := by decide
@[simp] lemma tbit_32_7 : Nat.testBit 32 7 = false := by decide
@[simp] lemma tbit_64_0 : Nat.testBit 64 0 = false := by decide
@[simp] lemma tbit_64_1 : Nat.testBit 64 1 = false := by decide
@[simp] lemma tbit_64_2 : Nat.testBit 64 2 = false := by decide
@[simp] lemma tbit_64_3 : Nat.testBit 64 3 = false := by decide
@[simp] lemma tbit_64_4 : Nat.testBit 64 4 = false := by decide
@[simp] lemma tbit_64_5 : Nat.testBit 64 5 = false := by decide
@[simp] lemma tbit_64_6 : Nat.testBit 64 6 = true := by decide
@[simp] lemma tbit_64_7 : Nat.testBit 64 7 = false := by decide
@[simp] lemma tbit_128_0 : Nat.testBit 128 0 = false := by decide
@[simp] lemma tbit_128_1 : Nat.testBit 128 1 = false := by decide
@[simp] lemma tbit_128_2 : Nat.testBit 128 2 = false := by decide
@[simp] lemma tbit_128_3 : Nat.testBit 128 3 = false := by decide
@[simp] lemma tbit_128_4 : Nat.testBit 128 4 = false := by decide
@[simp] lemma tbit_128_5 : Nat.testBit 128 5 = false := by decide
@[simp] lemma tbit_128_6 : Nat.testBit 128 6 = false := by decide
@[simp] lemma tbit_128_7 : Nat.testBit 128 7 = true := by decide
@[simp] lemma tbit_40_0 : Nat.testBit 40 0 = false := by decide
@[simp] lemma tbit_40_1 : Nat.testBit 40 1 = false := by decide
@[simp] lemma tbit_40_2 : Nat.testBit 40 2 = false := by decide
@[simp] lemma tbit_40_3 : Nat.testBit 40 3 = true := by decide
@[simp] lemma tbit_40_4 : Nat.testBit 40 4 = false := by decide
@[simp] lemma tbit_40_5 : Nat.testBit 40 5 = true := by decide
@[simp] lemma tbit_40_6 : Nat.testBit 40 6 = false := by decide
@[simp] lemma tbit_40_7 : Nat.testBit 40 7 = false := by decide
@[simp] lemma tbit_160_0 : Nat.testBit 160 0 = false := by decide
@[simp] lemma tbit_160_1 : Nat.testBit 160 1 = false := by decide
@[simp] lemma tbit_160_2 : Nat.testBit 160 2 = false := by decide
@[simp] lemma tbit_160_3 : Nat.testBit 160 3 = false := by decide
@[simp] lemma tbit_160_4 : Nat.testBit 160 4 = false := by decide
@[simp] lemma tbit_160_5 : Nat.testBit 160 5 = true := by decide
@[simp] lemma tbit_160_6 : Nat.testBit 160 6 = false := by decide
@[simp] lemma tbit_160_7 : Nat.testBit 160 7 = true := by decide
@[simp] lemma tbit_127_0 : Nat.testBit 127 0 = true := by decide
@[simp] lemma tbit_127_1 : Nat.testBit 127 1 = true := by decide
@[simp] lemma tbit_127_2 : Nat.testBit 127 2 = true := by decide
@[simp] lemma tbit_127_3 : Nat.testBit 127 3 = true := by decide
@[simp] lemma tbit_127_4 : Nat.testBit 127 4 = true := by decide
@[simp] lemma tbit_127_5 : Nat.testBit 127 5 = true := by decide
@[simp] lemma tbit_127_6 : Nat.testBit 127 6 = true := by decide
@[simp] lemma tbit_127_7 : Nat.testBit 127 7 = false := by decide
@[simp] lemma tbit_191_0 : Nat.testBit 191 0 = true := by decide
@[simp] lemma tbit_191_1 : Nat.testBit 191 1 = true := by decide
@[simp] lemma tbit_191_2 : Nat.testBit 191 2 = true := by decide
@[simp] lemma tbit_191_3 : Nat.testBit 191 3 = true := by decide
@[simp] lemma tbit_191_4 : Nat.testBit 191 4 = true := by decide
@[simp] lemma tbit_191_5 : Nat.testBit 191 5 = true := by decide
@[simp] lemma tbit_191_6 : Nat.testBit 191 6 = false := by decide
@[simp] lemma tbit_191_7 : Nat.testBit 191 7 = true := by decide
@[simp] lemma tbit_215_0 : Nat.testBit 215 0 = true := by decide
@[simp] lemma tbit_215_1 : Nat.testBit 215 1 = true := by decide
@[simp] lemma tbit_215_2 : Nat.testBit 215 2 = true := by decide
@[simp] lemma tbit_215_3 : Nat.testBit 215 3 = false := by decide
@[simp] lemma tbit_215_4 : Nat.testBit 215 4 = true := by decide
@[simp] lemma tbit_215_5 : Nat.testBit 215 5 = false := by decide
@[simp] lemma tbit_215_6 : Nat.testBit 215 6 = true := by decide
@[simp] lemma tbit_215_7 : Nat.testBit 215 7 = true := by decide
@[simp] lemma tbit_239_0 : Nat.testBit 239 0 = true := by decide
@[simp] lemma tbit_239_1 : Nat.testBit 239 1 = true := by decide
@[simp] lemma tbit_239_2 : Nat.testBit 239 2 = true := by decide
@[simp] lemma tbit_239_3 : Nat.testBit 239 3 = true := by decide
@[simp] lemma tbit_239_4 : Nat.testBit 239 4 = false := by decide
@[simp] lemma tbit_239_5 : Nat.testBit 239 5 = true := by decide
@[simp] lemma tbit_239_6 : Nat.testBit 239 6 = true := by decide
@[simp] lemma tbit_239_7 : Nat.testBit 239 7 = true := by decide
@[simp] lemma tbit_251_0 : Nat.testBit 251 0 = true := by decide
@[simp] lemma tbit_251_1 : Nat.testBit 251 1 = true := by decide
@[simp] lemma tbit_251_2 : Nat.testBit 251 2 = false := by decide
@[simp] lemma tbit_251_3 : Nat.testBit 251 3 = true := by decide
@[simp] lemma tbit_251_4 : Nat.testBit 251 4 = true := by decide
@[simp] lemma tbit_251_5 : Nat.testBit 251 5 = true := by decide
@[simp] lemma tbit_251_6 : Nat.testBit 251 6 = true := by decide
@[simp] lemma tbit_251_7 : Nat.testBit 251 7 = true := by decide
@[simp] lemma tbit_253_0 : Nat.testBit 253 0 = true := by decide
@[simp] lemma tbit_253_1 : Nat.testBit 253 1 = false := by decide
@[simp] lemma tbit_253_2 : Nat.testBit 253 2 = true := by decide
@[simp] lemma tbit_253_3 : Nat.testBit 253 3 = true := by decide
@[simp] lemma tbit_253_4 : Nat.testBit 253 4 = true := by decide
@[simp] lemma tbit_253_5 : Nat.testBit 253 5 = true := by decide
@[simp] lemma tbit_253_6 : Nat.testBit 253 6 = true := by decide
@[simp] lemma tbit_253_7 : Nat.testBit 253 7 = true := by decide
@[simp] lemma tbit_254_0 : Nat.testBit 254 0 = false := by decide
@[simp] lemma tbit_254_1 : Nat.testBit 254 1 = true := by decide
@[simp] lemma tbit_254_2 : Nat.testBit 254 2 = true := by decide
@[simp] lemma tbit_254_3 : Nat.testBit 254 3 = true := by decide
@[simp] lemma tbit_254_4 : Nat.testBit 254 4 = true := by decide
@[simp] lemma tbit_254_5 : Nat.testBit 254 5 = true := by decide
@[simp] lemma tbit_254_6 : Nat.testBit 254 6 = true := by decide
@[simp] lemma tbit_254_7 : Nat.testBit 254 7 = true := by decide
@[simp] lemma xor255_1 : (255 ^^^ 1 : Nat) = 254 := by decide
@[simp] lemma xor255_2 : (255 ^^^ 2 : Nat) = 253 := by decide
@[simp] lemma xor255_4 : (255 ^^^ 4 : Nat) = 251 := by decide
@[simp] lemma xor255_16 : (255 ^^^ 16 : Nat) = 239 := by decide
@[simp] lemma xor255_64 : (255 ^^^ 64 : Nat) = 191 := by decide
@[simp] lemma xor255_128 : (255 ^^^ 128 : Nat) = 127 := by decide
@[simp] lemma xor255_40 : (255 ^^^ 40 : Nat) = 215 := by decide

/-- A bit test `v &&& (1 <<< i) = 0` is exactly `testBit i = false`. -/
lemma and_one_shiftLeft_eq_zero (v i : Nat) :
    v &&& (1 <<< i) = 0 ↔ v.testBit i = false := by
  rw [Nat.one_shiftLeft, Nat.and_two_pow]
  cases h : v.testBit i <;> simp [h, Nat.pos_iff_ne_zero.symm, Nat.pos_pow_of_pos]

/-- Bits of the constant 255. -/
@[simp] lemma tbit_255 (i : Nat) : (255 : Nat).testBit i = decide (i < 8) := by
  rcases Nat.lt_or_ge i 8 with h | h
  · interval_cases i <;> decide
  · have h2 : (255 : Nat) < 2 ^ i :=
      lt_of_lt_of_le (by norm_num) (Nat.pow_le_pow_right (by norm_num) h)
    simp [Nat.testBit_lt_two_pow h2, Nat.not_lt_of_ge h]

/-- Effect of `set_flag` on an individual flag bit (`i < 8`). -/
lemma set_flag_testBit (cpu : Z80) (f : Nat) (c : Bool) (i : Nat) (hi : i < 8) :
    (set_flag cpu f c).reg_F.testBit i =
      (if c then cpu.reg_F.testBit i || f.testBit i
       else cpu.reg_F.testBit i && !f.testBit i) := by
  unfold set_flag
  rcases c with _ | _ <;>
    simp [Nat.testBit_or, Nat.testBit_and, Nat.testBit_xor, hi]

/-- Effect of `set_xy_flags` on an individual flag bit (`i < 8`). -/
lemma set_xy_flags_testBit (cpu : Z80) (v : Nat) (i : Nat) (hi : i < 8) :
    (set_xy_flags cpu v).reg_F.testBit i =
      ((cpu.reg_F.testBit i && !(40 : Nat).testBit i) || (v.testBit i && (40 : Nat).testBit i)) := by
  unfold set_xy_flags
  simp only [show (0x28 : Nat) = 40 from rfl]
  interval_cases i <;>
    simp [Nat.testBit_or, Nat.testBit_and]

/-- Claim C1, counterexample: executing BIT 5,(IX+0) via `cpu_ddfd_cb_step`
with IX = 0x2800 and memory[0x2800] = 0x00 leaves F bit 5 (the undocumented
Y flag) clear, although bit 5 of the high byte of the effective address
(0x28) is set — so X/Y are NOT taken from the high byte of IX+d. -/
theorem c1_counterexample :
    (cpu_ddfd_cb_step cpu0 c1mem 0x2800 true).1.reg_F.testBit 5 = false ∧
    (((0x2800 : Nat) >>> 8) &&& 0xFF).testBit 5 = true ∧
    (readByte c1mem 0x2800).testBit 5 = false := by
  decide

/-- The flag bits produced by `cpu_bit`, for any starting CPU state:
Z (bit 6) and P/V (bit 2) set iff the tested bit of `v` is zero, H (bit 4)
set, N (bit 1) clear, S (bit 7) set iff `b = 7` and bit 7 of `v` is set,
and the undocumented X/Y flags (bits 3 and 5) copied from `v`. -/
lemma cpu_bit_flag_bits (cpu : Z80) (v b : Nat) :
    ((cpu_bit cpu v b).reg_F.testBit 6 = !v.testBit b) ∧
    ((cpu_bit cpu v b).reg_F.testBit 2 = !v.testBit b) ∧
    ((cpu_bit cpu v b).reg_F.testBit 4 = true) ∧
    ((cpu_bit cpu v b).reg_F.testBit 1 = false) ∧
    ((cpu_bit cpu v b).reg_F.testBit 7 = (decide (b = 7) && v.testBit 7)) ∧
    ((cpu_bit cpu v b).reg_F.testBit 3 = v.testBit 3) ∧
    ((cpu_bit cpu v b).reg_F.testBit 5 = v.testBit 5) := by
  have hzb : (decide (v &&& (1 <<< b) = 0)) = !v.testBit b := by
    rcases h : v.testBit b with _ | _ <;>
      simp [(and_one_shiftLeft_eq_zero v b), h]
  have hiff : v &&& 128 = 0 ↔ v.testBit 7 = false := and_one_shiftLeft_eq_zero v 7
  have h7 : (decide (v &&& 128 ≠ 0)) = v.testBit 7 := by
    rcases h : v.testBit 7 with _ | _
    · simp [hiff.mpr h]
    · have hne : v &&& 128 ≠ 0 := fun hc => by simp [hiff.mp hc] at h
      simp [hne]
  unfold cpu_bit
  refine ⟨?_, ?_, ?_, ?_, ?_, ?_, ?_⟩ <;>
  · simp only [FLAG_Z, FLAG_PV, FLAG_H, FLAG_N, FLAG_S, Bool.decide_and, hzb, h7]
    rcases htb : v.testBit b with _ | _ <;> rcases h7b : v.testBit 7 with _ | _ <;>
      rcases hb7 : decide (b = 7) with _ | _ <;>
      simp [set_flag_testBit, set_xy_flags_testBit, htb, h7b]

/-- Claim C1, amended: for every DDCB/FDCB-prefixed BIT instruction executed
via `cpu_ddfd_cb_step`, the post-execution flags have Z and P/V set iff the
tested bit is zero, H = 1, N = 0, S set iff `b = 7` and that bit was 1, and
the undocumented X/Y bits (F bits 3 and 5) are taken from the byte fetched
from memory at the effective address (not from the high byte of IX+d). -/
theorem c1_bit_ixiy_flags (cpu : Z80) (mem : Mem) (indexVal : Nat) (is_ix : Bool)
    (hop : (readByte mem ((cpu.reg_PC + 1) % 65536)) >>> 6 &&& 3 = 1) :
    let op := readByte mem ((cpu.reg_PC + 1) % 65536)
    let b := (op >>> 3) &&& 7
    let addr := (((indexVal : Int) + int8OfByte (readByte mem cpu.reg_PC)).emod 65536).toNat
    let v := readByte mem addr
    let F := (cpu_ddfd_cb_step cpu mem indexVal is_ix).1.reg_F
    (F.testBit 6 = !v.testBit b) ∧
    (F.testBit 2 = !v.testBit b) ∧
    F.testBit 4 = true ∧
    F.testBit 1 = false ∧
    (F.testBit 7 = (decide (b = 7) && v.testBit 7)) ∧
    F.testBit 3 = v.testBit 3 ∧
    F.testBit 5 = v.testBit 5 := by
  intro op b addr v F
  have hF : F =
      (cpu_bit { cpu with reg_PC := ((cpu.reg_PC + 1) % 65536 + 1) % 65536 } v b).reg_F := by
    show ((cpu_ddfd_cb_step cpu mem indexVal is_ix).1).reg_F = _
    unfold cpu_ddfd_cb_step
    simp only [← show op = readByte mem ((cpu.reg_PC + 1) % 65536) from rfl]
    rw [if_pos hop]
  rw [hF]
  exact cpu_bit_flag_bits _ v b

/-- Witness for `c1_bit_ixiy_flags` at a concrete BIT 5,(IX+0) execution. -/
theorem c1_bit_ixiy_flags_witness :
    ((readByte c1mem ((cpu0.reg_PC + 1) % 65536)) >>> 6 &&& 3 = 1) ∧
    ((cpu_ddfd_cb_step cpu0 c1mem 0x2800 true).1.reg_F.testBit 4 = true) :=
  ⟨by decide, (c1_bit_ixiy_flags cpu0 c1mem 0x2800 true (by decide)).2.2.1⟩

/-- The prefix loop consumes exactly the DD/FD run described by
`isPfxChain`: it adds 4 T-states and applies `pfxRInc` once per prefix
byte, and stops at the first non-prefix opcode. -/
lemma fetchLoop_chain (mem : Mem) :
    ∀ (k fuel : Nat) (cpu : Z80) (pfx opcode t : Nat),
      k < fuel → isPfxChain mem k opcode cpu.reg_PC →
      ∃ pfx2 op2 cpu2,
        fetchLoop mem fuel cpu pfx opcode t = some (pfx2, op2, t + 4 * k, cpu2) ∧
        cpu2.reg_R = pfxRInc^[k] cpu.reg_R := by
  intro k
  induction k with
  | zero =>
    intro fuel cpu pfx opcode t hk hchain
    rcases fuel with _ | fuel
    · omega
    · refine ⟨pfx, opcode, cpu, ?_, rfl⟩
      simp only [fetchLoop, if_neg hchain, Nat.mul_zero, Nat.add_zero]
  | succ k ih =>
    intro fuel cpu pfx opcode t hk hchain
    rcases fuel with _ | fuel
    · omega
    · obtain ⟨hop, hrest⟩ := hchain
      obtain ⟨pfx2, op2, cpu2, heq, hR⟩ :=
        ih fuel { cpu with reg_PC := (cpu.reg_PC + 1) % 65536, reg_R := pfxRInc cpu.reg_R }
          (if opcode = 0xDD then 1 else 2) (readByte mem cpu.reg_PC) (t + 4)
          (by omega) hrest
      refine ⟨pfx2, op2, cpu2, ?_, ?_⟩
      · simp only [fetchLoop, if_pos hop]
        rw [show t + 4 * (k + 1) = t + 4 + 4 * k by ring]
        exact heq
      · rw [hR, ← Function.iterate_succ_apply]

/-- Claim C2, counterexample: executing a plain NOP via `cpu_step` from
R = 0x7F leaves R = 0x80: bit 7 of R is not preserved by the base-opcode
increment (the spec's 7-bit increment would give 0x00). -/
theorem c2_counterexample :
    (cpu_step_fetch c2cpu c2mem = some (0, 0, 4, { c2cpu with reg_R := 0x80, reg_PC := 1 })) ∧
    ((0x80 : Nat).testBit 7 ≠ (0x7F : Nat).testBit 7) := by
  exact ⟨by decide, by decide⟩

/-- `isPfxChain` is decidable (used to instantiate the C2 theorem). -/
instance isPfxChainDecidable (mem : Mem) :
    ∀ (k opcode pc : Nat), Decidable (isPfxChain mem k opcode pc)
  | 0, opcode, pc => by unfold isPfxChain; infer_instance
  | k + 1, opcode, pc => by
    unfold isPfxChain
    have := isPfxChainDecidable mem k (readByte mem pc) ((pc + 1) % 65536)
    infer_instance

set_option maxRecDepth 8192 in
/-- Claim C2, amended: for every instruction executed by `cpu_step` (not
halted, with a terminating prefix run of length `k`), R is updated exactly
once for the base opcode by `baseRInc` and exactly once more per extra
prefix byte by `pfxRInc` (4 T-states each).  Every update advances the low
7 bits of R by one modulo 128, but bit 7 is not always preserved: when the
low 7 bits wrap from 0x7F, the base-opcode update forces bit 7 to 1 and a
prefix update flips it. -/
theorem c2_r_increments (cpu : Z80) (mem : Mem) (k : Nat)
    (hhalt : cpu.halted = 0) (hk : k < 65536)
    (hchain : isPfxChain mem k (readByte mem cpu.reg_PC) ((cpu.reg_PC + 1) % 65536)) :
    (∃ pfx2 op2 cpu2,
        cpu_step_fetch cpu mem = some (pfx2, op2, 4 + 4 * k, cpu2) ∧
        cpu2.reg_R = pfxRInc^[k] (baseRInc cpu.reg_R)) ∧
    (∀ r, r < 256 →
        (baseRInc r) % 128 = (r + 1) % 128 ∧
        (pfxRInc r) % 128 = (r + 1) % 128 ∧
        (baseRInc r).testBit 7 = (if r % 128 = 127 then true else r.testBit 7) ∧
        (pfxRInc r).testBit 7 = (if r % 128 = 127 then !r.testBit 7 else r.testBit 7)) := by
  constructor
  · unfold cpu_step_fetch
    have hcases :
        (if cpu.ei_delay ≠ 0 then { cpu with iff1 := 1, iff2 := 1, ei_delay := 0 } else cpu).halted
            = 0 ∧
        (if cpu.ei_delay ≠ 0 then { cpu with iff1 := 1, iff2 := 1, ei_delay := 0 } else cpu).reg_R
            = cpu.reg_R ∧
        (if cpu.ei_delay ≠ 0 then { cpu with iff1 := 1, iff2 := 1, ei_delay := 0 } else cpu).reg_PC
            = cpu.reg_PC := by
      split <;> simp [hhalt]
    set cpu1 := if cpu.ei_delay ≠ 0 then { cpu with iff1 := 1, iff2 := 1, ei_delay := 0 } else cpu
      with hcpu1
    obtain ⟨hh, hr, hpc⟩ := hcases
    rw [if_neg (by simp [hh])]
    obtain ⟨pfx2, op2, cpu2, heq, hR⟩ :=
      fetchLoop_chain mem k 65536
        { cpu1 with reg_R := baseRInc cpu1.reg_R, reg_PC := (cpu1.reg_PC + 1) % 65536 }
        0 (readByte mem cpu1.reg_PC) 4 hk (by simpa [hpc] using hchain)
    exact ⟨pfx2, op2, cpu2, by simpa using heq, by simpa [hr] using hR⟩
  · decide

set_option maxRecDepth 8192 in
/-- Witness for `c2_r_increments`: a NOP executed from R = 0x7F. -/
theorem c2_r_increments_witness :
    (c2cpu.halted = 0 ∧ (0 : Nat) < 65536 ∧
      isPfxChain c2mem 0 (readByte c2mem c2cpu.reg_PC) ((c2cpu.reg_PC + 1) % 65536)) ∧
    ((∃ pfx2 op2 cpu2,
        cpu_step_fetch c2cpu c2mem = some (pfx2, op2, 4 + 4 * 0, cpu2) ∧
        cpu2.reg_R = pfxRInc^[0] (baseRInc c2cpu.reg_R)) ∧
    (∀ r, r < 256 →
        (baseRInc r) % 128 = (r + 1) % 128 ∧
        (pfxRInc r) % 128 = (r + 1) % 128 ∧
        (baseRInc r).testBit 7 = (if r % 128 = 127 then true else r.testBit 7) ∧
        (pfxRInc r).testBit 7 = (if r % 128 = 127 then !r.testBit 7 else r.testBit 7))) :=
  ⟨⟨by decide, by decide, by decide⟩,
    c2_r_increments c2cpu c2mem 0 (by decide) (by decide) (by decide)⟩

/-- Claim C3, counterexample: LDI with A = 0 and transferred byte 0x02
leaves F bit 5 (Y) clear, although bit 1 of (A + transferred byte) is set —
the code takes Y from bit 5 of the sum, not from bit 1. -/
theorem c3_counterexample :
    ((cpu_ed_step c3cpu c3mem).map (fun r => r.1.reg_F.testBit 5) = some false) ∧
    (((c3cpu.reg_A + readByte c3mem (get_HL c3cpu)) % 256).testBit 1 = true) := by
  exact ⟨by decide, by decide⟩

/-- The flag bits produced by `ld_block_flag_update`: X and Y are copied
from bits 3 and 5 of `sum`, and P/V records `bc ≠ 0`. -/
lemma ld_block_flag_update_testBits (cpu : Z80) (bc sum : Nat) :
    ((ld_block_flag_update cpu bc sum).reg_F.testBit 3 = sum.testBit 3) ∧
    ((ld_block_flag_update cpu bc sum).reg_F.testBit 5 = sum.testBit 5) ∧
    ((ld_block_flag_update cpu bc sum).reg_F.testBit 2 = decide (bc ≠ 0)) := by
  unfold ld_block_flag_update
  rcases h : decide (bc ≠ 0) with _ | _ <;>
    simp [h, set_flag_testBit, set_xy_flags_testBit, FLAG_H, FLAG_N, FLAG_PV]

/-- Projection form of `ld_block_flag_update_testBits` for bit 3 (X). -/
lemma ld_xy3 (cpu : Z80) (bc sum : Nat) :
    (ld_block_flag_update cpu bc sum).reg_F.testBit 3 = sum.testBit 3 :=
  (ld_block_flag_update_testBits cpu bc sum).1

/-- Projection form of `ld_block_flag_update_testBits` for bit 5 (Y). -/
lemma ld_xy5 (cpu : Z80) (bc sum : Nat) :
    (ld_block_flag_update cpu bc sum).reg_F.testBit 5 = sum.testBit 5 :=
  (ld_block_flag_update_testBits cpu bc sum).2.1

/-- Projection form of `ld_block_flag_update_testBits` for bit 2 (P/V). -/
lemma ld_pv2 (cpu : Z80) (bc sum : Nat) :
    (ld_block_flag_update cpu bc sum).reg_F.testBit 2 = decide (bc ≠ 0) :=
  (ld_block_flag_update_testBits cpu bc sum).2.2

/-- Claim C3, amended: for every execution of LDI, LDIR, LDD or LDDR via
`cpu_ed_step`, the post-execution undocumented flags are X (F bit 3) =
bit 3 of (A + transferred byte) and Y (F bit 5) = bit 5 of
(A + transferred byte) — not bit 1 — and P/V is set iff BC is non-zero
after the decrement. -/
theorem c3_ld_block_flags (cpu : Z80) (mem : Mem)
    (hop : readByte mem cpu.reg_PC = 0xA0 ∨ readByte mem cpu.reg_PC = 0xB0 ∨
           readByte mem cpu.reg_PC = 0xA8 ∨ readByte mem cpu.reg_PC = 0xB8) :
    ∃ cpu2 mem2 t, cpu_ed_step cpu mem = some (cpu2, mem2, t) ∧
      cpu2.reg_F.testBit 3 = ((cpu.reg_A + readByte mem (get_HL cpu)) % 256).testBit 3 ∧
      cpu2.reg_F.testBit 5 = ((cpu.reg_A + readByte mem (get_HL cpu)) % 256).testBit 5 ∧
      cpu2.reg_F.testBit 2 = decide ((get_BC cpu + 65535) % 65536 ≠ 0) := by
  rcases hop with h | h | h | h <;>
    simp only [cpu_ed_step, h,
      show ((160 : Nat) = 160) = True by simp, show ((160 : Nat) = 176) = False by simp,
      show ((160 : Nat) = 168) = False by simp, show ((160 : Nat) = 184) = False by simp,
      show ((176 : Nat) = 160) = False by simp, show ((176 : Nat) = 176) = True by simp,
      show ((176 : Nat) = 168) = False by simp, show ((176 : Nat) = 184) = False by simp,
      show ((168 : Nat) = 160) = False by simp, show ((168 : Nat) = 176) = False by simp,
      show ((168 : Nat) = 168) = True by simp, show ((168 : Nat) = 184) = False by simp,
      show ((184 : Nat) = 160) = False by simp, show ((184 : Nat) = 176) = False by simp,
      show ((184 : Nat) = 168) = False by simp, show ((184 : Nat) = 184) = True by simp,
      false_or, or_true, true_or, or_false, if_true, if_false, true_and, false_and] <;>
    first
      | (split <;>
          (refine ⟨_, _, _, rfl, ?_, ?_, ?_⟩ <;>
            simp [ld_xy3, ld_xy5, ld_pv2, get_HL, get_BC, get_DE, set_BC, set_DE, set_HL]))
      | (refine ⟨_, _, _, rfl, ?_, ?_, ?_⟩ <;>
          simp [ld_xy3, ld_xy5, ld_pv2, get_HL, get_BC, get_DE, set_BC, set_DE, set_HL])

/-- Witness for `c3_ld_block_flags`: the LDI execution of the C3 state. -/
theorem c3_ld_block_flags_witness :
    (readByte c3mem c3cpu.reg_PC = 0xA0 ∨ readByte c3mem c3cpu.reg_PC = 0xB0 ∨
      readByte c3mem c3cpu.reg_PC = 0xA8 ∨ readByte c3mem c3cpu.reg_PC = 0xB8) ∧
    (∃ cpu2 mem2 t, cpu_ed_step c3cpu c3mem = some (cpu2, mem2, t) ∧
      cpu2.reg_F.testBit 3 = ((c3cpu.reg_A + readByte c3mem (get_HL c3cpu)) % 256).testBit 3 ∧
      cpu2.reg_F.testBit 5 = ((c3cpu.reg_A + readByte c3mem (get_HL c3cpu)) % 256).testBit 5 ∧
      cpu2.reg_F.testBit 2 = decide ((get_BC c3cpu + 65535) % 65536 ≠ 0)) :=
  ⟨Or.inl (by decide), c3_ld_block_flags c3cpu c3mem (Or.inl (by decide))⟩

/-- Claim C4, counterexample: accepting an interrupt with R = 0x7F leaves
R = 0x80, so the refresh update is not the 7-bit increment with bit 7
preserved that the spec describes (which would give 0x00): bit 7 changed. -/
theorem c4_counterexample :
    ((cpu_interrupt c4rcpu c2mem 0xFF).1.reg_R = 0x80) ∧
    ((0x80 : Nat).testBit 7 ≠ (0x7F : Nat).testBit 7) :=
  ⟨by decide, by decide⟩

/-- Claim C4, amended: `cpu_interrupt` wakes a halted CPU (advancing PC by
one and clearing `halted`), clears IFF1 and IFF2, updates R once by the
refresh formula `((R + 1) | (R & 0x80)) mod 256` (which advances the low
7 bits but forces bit 7 when incrementing from 0x7F), pushes the (possibly
adjusted) PC little-endian with the low byte at SP-2, and jumps to 0x0038
with 13 T-states in IM 0/1 or to the little-endian word at
`(I << 8) | data_bus` with 19 T-states in IM 2. -/
theorem c4_interrupt_spec (cpu : Z80) (mem : Mem) (data_bus : Nat)
    (hmode : cpu.interruptMode ≤ 2)
    (hsp : 0x4002 ≤ cpu.reg_SP ∧ cpu.reg_SP < 65536) :
    (cpu_interrupt cpu mem data_bus).1.iff1 = 0 ∧
    (cpu_interrupt cpu mem data_bus).1.iff2 = 0 ∧
    (cpu_interrupt cpu mem data_bus).1.halted = 0 ∧
    (cpu_interrupt cpu mem data_bus).1.reg_R = baseRInc cpu.reg_R ∧
    (cpu_interrupt cpu mem data_bus).1.reg_SP = cpu.reg_SP - 2 ∧
    readByte (cpu_interrupt cpu mem data_bus).2.1 (cpu.reg_SP - 2) =
      (if cpu.halted ≠ 0 then (cpu.reg_PC + 1) % 65536 else cpu.reg_PC) % 256 ∧
    readByte (cpu_interrupt cpu mem data_bus).2.1 (cpu.reg_SP - 1) =
      ((if cpu.halted ≠ 0 then (cpu.reg_PC + 1) % 65536 else cpu.reg_PC) >>> 8) % 256 ∧
    (cpu.interruptMode = 2 →
      (cpu_interrupt cpu mem data_bus).1.reg_PC =
        readWord mem (((cpu.reg_I <<< 8) ||| data_bus) % 65536) ∧
      (cpu_interrupt cpu mem data_bus).2.2 = 19) ∧
    (cpu.interruptMode ≠ 2 →
      (cpu_interrupt cpu mem data_bus).1.reg_PC = 0x0038 ∧
      (cpu_interrupt cpu mem data_bus).2.2 = 13) := by
  obtain ⟨hsp1, hsp2⟩ := hsp
  have ha2 : (cpu.reg_SP + 65535) % 65536 = cpu.reg_SP - 1 := by omega
  have ha1 : (cpu.reg_SP - 1 + 65535) % 65536 = cpu.reg_SP - 2 := by omega
  have hb2 : ¬ ((cpu.reg_SP - 1) % 65536 < 0x4000) := by omega
  have hb1 : ¬ ((cpu.reg_SP - 2) % 65536 < 0x4000) := by omega
  have hm2 : (cpu.reg_SP - 1) % 65536 = cpu.reg_SP - 1 := by omega
  have hm1 : (cpu.reg_SP - 2) % 65536 = cpu.reg_SP - 2 := by omega
  have hne : ¬ (cpu.reg_SP - 2 = cpu.reg_SP - 1) := by omega
  have hne2 : ¬ (cpu.reg_SP - 1 = cpu.reg_SP - 2) := by omega
  have hc2 : ¬ (cpu.reg_SP - 1 < 0x4000) := by omega
  have hc1 : ¬ (cpu.reg_SP - 2 < 0x4000) := by omega
  have h255 : ∀ n : Nat, n &&& 255 = n % 256 := fun n =>
    Nat.and_pow_two_sub_one_eq_mod n 8
  interval_cases hm : cpu.interruptMode <;>
    by_cases hh : cpu.halted ≠ 0 <;>
    simp [cpu_interrupt, cpu_push, readByte, writeByte, hh, hm,
      ha1, ha2, hb1, hb2, hm1, hm2, hne, hne2, hc1, hc2, h255, Nat.mod_mod_of_dvd] <;>
    omega

/-- Witness for `c4_interrupt_spec`: the spec's IM 2 vector scenario
(I = 0x80, vector word 0x5678 at 0x80FF, SP = 0xFFFE, PC = 0x1234,
data bus 0xFF), together with the concrete outcomes the claim lists. -/
theorem c4_interrupt_spec_witness :
    (c4cpu.interruptMode ≤ 2 ∧ 0x4002 ≤ c4cpu.reg_SP ∧ c4cpu.reg_SP < 65536) ∧
    ((cpu_interrupt c4cpu c4mem 0xFF).1.iff1 = 0) ∧
    ((cpu_interrupt c4cpu c4mem 0xFF).1.reg_PC = 0x5678) ∧
    ((cpu_interrupt c4cpu c4mem 0xFF).1.reg_SP = 0xFFFC) ∧
    (readByte (cpu_interrupt c4cpu c4mem 0xFF).2.1 0xFFFC = 0x34) ∧
    (readByte (cpu_interrupt c4cpu c4mem 0xFF).2.1 0xFFFD = 0x12) ∧
    ((cpu_interrupt c4cpu c4mem 0xFF).2.2 = 19) :=
  ⟨⟨by decide, by decide, by decide⟩,
    (c4_interrupt_spec c4cpu c4mem 0xFF (by decide) ⟨by decide, by decide⟩).1,
    by decide, by decide, by decide, by decide, by decide⟩

/-- Bit `i` of the keyboard-row fold of `io_read`: set iff `i < 8` and every
selected row (those with `hb & (1 << row) = 0`) has bit `i` set. -/
lemma io_fold_testBit (kb : Nat → Nat) (hb i : Nat) (n : Nat) :
    (((List.range n).foldl
        (fun result row => if hb &&& (1 <<< row) = 0 then result &&& kb row else result)
        0xFF).testBit i)
      = (decide (i < 8) &&
          decide (∀ row, row < n → hb &&& (1 <<< row) = 0 → (kb row).testBit i = true)) := by
  induction n with
  | zero => simp
  | succ n ih =>
    rw [List.range_succ, List.foldl_append]
    simp only [List.foldl_cons, List.foldl_nil]
    by_cases hcond : hb &&& (1 <<< n) = 0
    · have hiff : (∀ row, row < n + 1 → hb &&& (1 <<< row) = 0 → (kb row).testBit i = true) ↔
          ((∀ row, row < n → hb &&& (1 <<< row) = 0 → (kb row).testBit i = true) ∧
            (kb n).testBit i = true) := by
        constructor
        · intro h
          exact ⟨fun row hr hc => h row (by omega) hc, h n (by omega) hcond⟩
        · rintro ⟨h1, h2⟩ row hr hc
          rcases Nat.lt_succ_iff_lt_or_eq.mp hr with hr2 | rfl
          · exact h1 row hr2 hc
          · exact h2
      rw [if_pos hcond, Nat.testBit_and, ih]
      simp only [hiff, Bool.decide_and, Bool.decide_coe, Bool.and_assoc]
    · have hiff : (∀ row, row < n + 1 → hb &&& (1 <<< row) = 0 → (kb row).testBit i = true) ↔
          (∀ row, row < n → hb &&& (1 <<< row) = 0 → (kb row).testBit i = true) := by
        constructor
        · intro h row hr hc
          exact h row (by omega) hc
        · intro h row hr hc
          rcases Nat.lt_succ_iff_lt_or_eq.mp hr with hr2 | rfl
          · exact h row hr2 hc
          · exact absurd hc hcond
      rw [if_neg hcond, ih]
      simp only [hiff]

/-- Claim C5: `io_read` on a port with bit 0 clear returns a byte whose
bits 0-4 are the AND of the masks of every keyboard half-row whose
corresponding high-address bit is 0, whose bit 6 equals the current tape
EAR level, and whose bits 5 and 7 are always 1; on a port with bit 0 set it
returns 0xFF. -/
theorem c5_io_read_spec (port : Nat) (kb : Nat → Nat) (ear : Bool) :
    (port &&& 1 = 0 →
      (∀ i, i < 5 →
        ((io_read port kb ear).testBit i = true ↔
          ∀ row, row < 8 → (port >>> 8).testBit row = false → (kb row).testBit i = true)) ∧
      (io_read port kb ear).testBit 6 = ear ∧
      (io_read port kb ear).testBit 5 = true ∧
      (io_read port kb ear).testBit 7 = true) ∧
    (port &&& 1 ≠ 0 → io_read port kb ear = 0xFF) := by
  constructor
  · intro heven
    have hsel : ∀ row, row < 8 →
        (((port >>> 8) &&& 0xFF) &&& (1 <<< row) = 0 ↔ (port >>> 8).testBit row = false) := by
      intro row hrow
      rw [Nat.and_assoc]
      have h255 : (0xFF : Nat) &&& (1 <<< row) = 1 <<< row := by
        interval_cases row <;> decide
      rw [h255, and_one_shiftLeft_eq_zero]
    have hforall : ∀ i : Nat,
        ((∀ row, row < 8 → ((port >>> 8) &&& 0xFF) &&& (1 <<< row) = 0 →
            (kb row).testBit i = true) ↔
          (∀ row, row < 8 → (port >>> 8).testBit row = false → (kb row).testBit i = true)) := by
      intro i
      constructor
      · intro h row hrow hbit
        exact h row hrow ((hsel row hrow).mpr hbit)
      · intro h row hrow hc
        exact h row hrow ((hsel row hrow).mp hc)
    refine ⟨?_, ?_, ?_, ?_⟩
    · intro i hi
      have hi8 : i < 8 := by omega
      have ht160 : Nat.testBit 160 i = false := by interval_cases i <;> decide
      have ht64 : Nat.testBit 64 i = false := by interval_cases i <;> decide
      have ht191 : Nat.testBit 191 i = true := by interval_cases i <;> decide
      rcases ear with _ | _ <;>
        simp [io_read, heven, Nat.testBit_or, Nat.testBit_and, io_fold_testBit,
          ht160, ht64, ht191, hi8, hforall i]
    · rcases ear with _ | _ <;>
        simp [io_read, heven, Nat.testBit_or, Nat.testBit_and]
    · rcases ear with _ | _ <;>
        simp [io_read, heven, Nat.testBit_or, Nat.testBit_and]
    · rcases ear with _ | _ <;>
        simp [io_read, heven, Nat.testBit_or, Nat.testBit_and]
  · intro hodd
    have hodd2 : ¬ port % 2 = 0 := by
      rwa [← Nat.and_one_is_mod]
    simp [io_read, hodd2]

/-- Witness for `c5_io_read_spec` at port 0xFEFE with all rows 0xFF and EAR
high: applying the even branch yields bit 6 = EAR = 1. -/
theorem c5_io_read_spec_witness :
    ((0xFEFE : Nat) &&& 1 = 0) ∧
    ((io_read 0xFEFE (fun _ => 0xFF) true).testBit 6 = true) :=
  ⟨by decide, ((c5_io_read_spec 0xFEFE (fun _ => 0xFF) true).1 (by decide)).2.1⟩

/-- Claim C6: processing the ULA queue sets the border to `value & 7` for
each write in order (the final border is the last write's), forwards one
MIC call `(t, (value >> 3) & 1)` per write in order, and pushes a beeper
event `(t, (value >> 4) & 1)` exactly when bit 4 differs from the current
beeper level; concretely, from beeper level 0 a write of 0x10 at T=100
produces exactly the event (100, 1), a second 0x10 none, and 0x00 at T=200
the event (200, 0). -/
theorem c6_ula_process_spec :
    (∀ (queue : List UlaWriteEvent) (border beeper : Nat),
      (ula_process_port_events queue border beeper).2.2.2 =
        queue.map (fun e => (e.t_state, (e.value >>> 3) &&& 1)) ∧
      (ula_process_port_events queue border beeper).1 =
        (queue.map (fun e => e.value &&& 0x07)).getLastD border ∧
      (ula_process_port_events queue border beeper).2.2.1 =
        beeperTogglesSpec beeper
          (queue.map (fun e => (e.t_state, (e.value >>> 4) &&& 1)))) ∧
    ((ula_process_port_events
        [⟨0x10, 100⟩, ⟨0x10, 150⟩, ⟨0x00, 200⟩] 0 0).2.2.1 = [(100, 1), (200, 0)]) := by
  constructor
  · intro queue
    induction queue with
    | nil => intro border beeper; simp [ula_process_port_events, beeperTogglesSpec]
    | cons e rest ih =>
      intro border beeper
      by_cases h : (e.value >>> 4) &&& 0x01 = beeper
      · have hno : ¬((e.value >>> 4) &&& 0x01 ≠ beeper) := by simpa using h
        simp only [ula_process_port_events, List.map_cons, beeperTogglesSpec,
          if_neg hno, List.nil_append]
        refine ⟨?_, ?_, ?_⟩
        · rw [(ih _ _).1]
        · rw [List.getLastD_cons]
          exact (ih _ _).2.1
        · exact (ih _ _).2.2
      · have hyes : (e.value >>> 4) &&& 0x01 ≠ beeper := h
        simp only [ula_process_port_events, List.map_cons, beeperTogglesSpec,
          if_pos hyes, List.singleton_append]
        refine ⟨?_, ?_, ?_⟩
        · rw [(ih _ _).1]
        · rw [List.getLastD_cons]
          exact (ih _ _).2.1
        · rw [(ih _ _).2.2]
  · decide

/-- With all queued timestamps at most `now`, the clamp in
`ula_queue_port_value` does not fire: the event time is exactly
`now + progress`. -/
lemma ula_event_time_eq (q : List UlaWriteEvent) (now p : Nat)
    (hbase : ∀ e ∈ q, e.t_state ≤ now) :
    ula_event_time q now (some p) now = now + p := by
  unfold ula_event_time
  cases hq : q.getLast? with
  | none => rfl
  | some prev =>
    have hle := hbase prev (List.mem_of_mem_getLast? hq)
    simp only
    rw [if_neg (by omega)]

/-- Appending an event no earlier than every queued one keeps the queue
timestamps monotone. -/
lemma chain_le_append (q : List UlaWriteEvent) (e : UlaWriteEvent)
    (hsort : List.Chain' (fun a b => a.t_state ≤ b.t_state) q)
    (hle : ∀ x ∈ q, x.t_state ≤ e.t_state) :
    List.Chain' (fun a b => a.t_state ≤ b.t_state) (q ++ [e]) := by
  rw [List.chain'_append]
  refine ⟨hsort, List.chain'_singleton e, ?_⟩
  intro x hx y hy
  simp only [List.head?_cons, Option.mem_def, Option.some.injEq] at hy
  subst hy
  exact hle x (List.mem_of_mem_getLast? hx)

/-- `ula_queue_port_value` preserves timestamp monotonicity when the queue
holds only timestamps at most `now`. -/
lemma ula_queue_port_value_sorted (q : List UlaWriteEvent) (now p v : Nat)
    (hsort : List.Chain' (fun a b => a.t_state ≤ b.t_state) q)
    (hbase : ∀ e ∈ q, e.t_state ≤ now) :
    List.Chain' (fun a b => a.t_state ≤ b.t_state)
      (ula_queue_port_value q now (some p) now v) := by
  unfold ula_queue_port_value
  rw [ula_event_time_eq q now p hbase]
  split
  · refine chain_le_append q _ hsort fun x hx => ?_
    have := hbase x hx
    show x.t_state ≤ now + p
    omega
  · refine chain_le_append _ _ ?_ fun x hx => ?_
    · rw [List.drop_one]
      exact hsort.tail
    · have := hbase x (List.mem_of_mem_drop hx)
      show x.t_state ≤ now + p
      omega

/-- The queue/trace pair produced by one `io_write`: the queue stays
monotone and every traced event is stamped exactly `now + p`. -/
lemma io_write_tr_props (port value : Nat) (q : List UlaWriteEvent) (now p : Nat)
    (hsort : List.Chain' (fun a b => a.t_state ≤ b.t_state) q)
    (hbase : ∀ e ∈ q, e.t_state ≤ now) :
    List.Chain' (fun a b => a.t_state ≤ b.t_state) (io_write_tr port value q [] now p).1 ∧
    (∀ e ∈ (io_write_tr port value q [] now p).2, e.t_state = now + p) := by
  unfold io_write_tr
  split
  · refine ⟨ula_queue_port_value_sorted q now p value hsort hbase, ?_⟩
    intro e he
    simp only [List.nil_append, List.mem_singleton] at he
    subst he
    exact ula_event_time_eq q now p hbase
  · exact ⟨hsort, by simp⟩

/-- The queue/trace of a `cpu_ed_out` result: monotone queue, every traced
event stamped `now + t`, and 8 extra T-states. -/
lemma cpu_ed_out_props (c : Z80) (m : Mem) (q : List UlaWriteEvent) (now t r : Nat)
    (hsort : List.Chain' (fun a b => a.t_state ≤ b.t_state) q)
    (hbase : ∀ e ∈ q, e.t_state ≤ now) :
    List.Chain' (fun a b => a.t_state ≤ b.t_state) ((cpu_ed_out c m q now t r).2.2.1) ∧
    (∀ e ∈ (cpu_ed_out c m q now t r).2.2.2.1, e.t_state = now + t) ∧
    (cpu_ed_out c m q now t r).2.2.2.2 = t + 8 := by
  unfold cpu_ed_out
  exact ⟨(io_write_tr_props _ _ q now t hsort hbase).1,
    (io_write_tr_props _ _ q now t hsort hbase).2, rfl⟩

/-- Claim C7: for every instruction executed by `cpu_step` that performs
ULA (even-port) writes, assuming the pending queue is monotone with all
timestamps at most the instruction's base T-state `now` (the state the main
loop guarantees, since it drains the queue after every instruction), the
resulting queue is monotone in queue order and every enqueued timestamp `t`
satisfies `now ≤ t < now + T` where `T` is the instruction's T-state
count. -/
theorem c7_out_timestamps (cpu : Z80) (mem : Mem) (q : List UlaWriteEvent) (now : Nat)
    (hsort : List.Chain' (fun a b => a.t_state ≤ b.t_state) q)
    (hbase : ∀ e ∈ q, e.t_state ≤ now) :
    ∀ res, cpu_step_out cpu mem q now = some res →
      List.Chain' (fun a b => a.t_state ≤ b.t_state) res.2.2.1 ∧
      ∀ e ∈ res.2.2.2.1, now ≤ e.t_state ∧ e.t_state < now + res.2.2.2.2 := by
  intro res hres
  unfold cpu_step_out at hres
  cases hfetch : cpu_step_fetch cpu mem with
  | none => rw [hfetch] at hres; cases hres
  | some r =>
    obtain ⟨pfx, opcode, t, cpu1⟩ := r
    rw [hfetch] at hres
    simp only at hres
    by_cases h1 : opcode = 0xD3
    · rw [if_pos h1] at hres
      obtain rfl := (Option.some.inj hres).symm
      refine ⟨(io_write_tr_props _ _ q now t hsort hbase).1, fun e he => ?_⟩
      have h2 := (io_write_tr_props _ _ q now t hsort hbase).2 e he
      show now ≤ e.t_state ∧ e.t_state < now + (t + 7)
      omega
    · rw [if_neg h1] at hres
      by_cases h2 : opcode = 0xED
      case neg => rw [if_neg h2] at hres; cases hres
      rw [if_pos h2] at hres
      have edout : ∀ (c : Z80) (rv : Nat), res = cpu_ed_out c mem q now t rv →
          List.Chain' (fun a b => a.t_state ≤ b.t_state) res.2.2.1 ∧
          ∀ e ∈ res.2.2.2.1, now ≤ e.t_state ∧ e.t_state < now + res.2.2.2.2 := by
        rintro c rv rfl
        obtain ⟨hc, hev, hT⟩ := cpu_ed_out_props c mem q now t rv hsort hbase
        refine ⟨hc, fun e he => ?_⟩
        have := hev e he
        rw [hT]
        omega
      by_cases e1 : readByte mem cpu1.reg_PC = 0x41
      · rw [if_pos e1] at hres; exact edout _ _ (Option.some.inj hres).symm
      rw [if_neg e1] at hres
      by_cases e2 : readByte mem cpu1.reg_PC = 0x49
      · rw [if_pos e2] at hres; exact edout _ _ (Option.some.inj hres).symm
      rw [if_neg e2] at hres
      by_cases e3 : readByte mem cpu1.reg_PC = 0x51
      · rw [if_pos e3] at hres; exact edout _ _ (Option.some.inj hres).symm
      rw [if_neg e3] at hres
      by_cases e4 : readByte mem cpu1.reg_PC = 0x59
      · rw [if_pos e4] at hres; exact edout _ _ (Option.some.inj hres).symm
      rw [if_neg e4] at hres
      by_cases e5 : readByte mem cpu1.reg_PC = 0x61
      · rw [if_pos e5] at hres; exact edout _ _ (Option.some.inj hres).symm
      rw [if_neg e5] at hres
      by_cases e6 : readByte mem cpu1.reg_PC = 0x69
      · rw [if_pos e6] at hres; exact edout _ _ (Option.some.inj hres).symm
      rw [if_neg e6] at hres
      by_cases e7 : readByte mem cpu1.reg_PC = 0x71
      · rw [if_pos e7] at hres; exact edout _ _ (Option.some.inj hres).symm
      rw [if_neg e7] at hres
      by_cases e8 : readByte mem cpu1.reg_PC = 0x79
      · rw [if_pos e8] at hres; exact edout _ _ (Option.some.inj hres).symm
      rw [if_neg e8] at hres
      by_cases e9 : readByte mem cpu1.reg_PC = 0xA3 ∨ readByte mem cpu1.reg_PC = 0xB3 ∨
        readByte mem cpu1.reg_PC = 0xAB ∨ readByte mem cpu1.reg_PC = 0xBB
      case neg => rw [if_neg e9] at hres; cases hres
      rw [if_pos e9] at hres
      have closer : ∀ (c : Z80) (k : Nat), 0 < k →
          res = (c, mem, (io_write_tr (get_BC ({ cpu1 with
              reg_PC := (cpu1.reg_PC + 1) % 65536 }))
            (readByte mem (get_HL ({ cpu1 with reg_PC := (cpu1.reg_PC + 1) % 65536 })))
            q [] now t).1,
            (io_write_tr (get_BC ({ cpu1 with reg_PC := (cpu1.reg_PC + 1) % 65536 }))
              (readByte mem (get_HL ({ cpu1 with reg_PC := (cpu1.reg_PC + 1) % 65536 })))
              q [] now t).2, t + k) →
          List.Chain' (fun a b => a.t_state ≤ b.t_state) res.2.2.1 ∧
          ∀ e ∈ res.2.2.2.1, now ≤ e.t_state ∧ e.t_state < now + res.2.2.2.2 := by
        rintro c k hk rfl
        refine ⟨(io_write_tr_props _ _ q now t hsort hbase).1, fun e he => ?_⟩
        have := (io_write_tr_props _ _ q now t hsort hbase).2 e he
        show now ≤ e.t_state ∧ e.t_state < now + (t + k)
        omega
      by_cases d : readByte mem cpu1.reg_PC = 0xA3 ∨ readByte mem cpu1.reg_PC = 0xB3
      · rw [if_pos d] at hres
        split at hres
        · exact closer _ 13 (by norm_num) (Option.some.inj hres).symm
        · exact closer _ 8 (by norm_num) (Option.some.inj hres).symm
      · rw [if_neg d] at hres
        split at hres
        · exact closer _ 13 (by norm_num) (Option.some.inj hres).symm
        · exact closer _ 8 (by norm_num) (Option.some.inj hres).symm

/-- Witness for `c7_out_timestamps`: OUT (0xFE),A with A = 0x10 executed at
base T-state 100 from an empty queue enqueues exactly one event at T = 104
within the instruction's 11 T-states. -/
theorem c7_out_timestamps_witness :
    (List.Chain' (fun a b : UlaWriteEvent => a.t_state ≤ b.t_state) []) ∧
    (∀ e ∈ ([] : List UlaWriteEvent), e.t_state ≤ 100) ∧
    ((cpu_step_out c7cpu c7mem [] 100).map
        (fun r => (r.2.2.1, r.2.2.2.1, r.2.2.2.2)) =
      some ([⟨0x10, 104⟩], [⟨0x10, 104⟩], 11)) ∧
    (∀ res, cpu_step_out c7cpu c7mem [] 100 = some res →
      List.Chain' (fun a b => a.t_state ≤ b.t_state) res.2.2.1 ∧
      ∀ e ∈ res.2.2.2.1, 100 ≤ e.t_state ∧ e.t_state < 100 + res.2.2.2.2) :=
  ⟨by simp, by simp, by decide,
    c7_out_timestamps c7cpu c7mem [] 100 (by simp) (by simp)⟩

/-! ### C8: tape waveform synthesis lemmas -/

/-- The double-based pause conversion equals the exact pause_ms * 3500. -/
lemma tape_pause_to_tstates_eq (p : Nat) : tape_pause_to_tstates p = p * 3500 := by
  simp only [tape_pause_to_tstates, CPU_CLOCK_HZ]
  by_cases hp : p = 0
  · simp [hp]
  · rw [if_neg hp]
    have hval : ((p : ℚ) / 1000) * 3500000 = ((p * 3500 : Nat) : ℚ) := by
      push_cast
      ring
    rw [hval]
    have hgt : (0 : ℚ) < ((p * 3500 : Nat) : ℚ) := by
      have : 0 < p * 3500 := Nat.mul_pos (Nat.pos_of_ne_zero hp) (by norm_num)
      exact_mod_cast this
    rw [if_neg (not_le.mpr hgt)]
    have hfloor : ⌊((p * 3500 : Nat) : ℚ) + 1 / 2⌋ = ((p * 3500 : Nat) : ℤ) := by
      rw [Int.floor_eq_iff]
      constructor
      · push_cast
        linarith
      · push_cast
        linarith
    rw [hfloor]
    omega

/-- A nonzero pulse below the uint32 cap is stored unchanged. -/
lemma add_pulse_of_le (d : Nat) (h1 : d ≠ 0) (h2 : d ≤ 4294967295) :
    tape_waveform_add_pulse d = [d] := by
  simp [tape_waveform_add_pulse, h1, Nat.min_eq_left h2]

/-- Pilot emission with no pending silence: n pulses of 2168 T-states. -/
lemma emitPilots_zero (n : Nat) : emitPilots n 0 = (List.replicate n 2168, 0) := by
  induction n with
  | zero => rfl
  | succ n ih =>
    simp [emitPilots, ih, TAPE_PILOT_PULSE_TSTATES, tape_waveform_add_pulse,
      List.replicate_succ]

/-- Pilot emission folds pending silence into the first pulse only. -/
lemma emitPilots_pending (n pending : Nat) (h : pending ≤ 3500000000) :
    emitPilots (n + 1) pending = ((2168 + pending) :: List.replicate n 2168, 0) := by
  have hne : (2168 : Nat) + pending ≠ 0 := by omega
  have hle : (2168 : Nat) + pending ≤ 4294967295 := by omega
  simp [emitPilots, emitPilots_zero, TAPE_PILOT_PULSE_TSTATES, add_pulse_of_le _ hne hle]

/-- Testing a power-of-two mask is testing the corresponding bit. -/
lemma and_mask_ne (v k : Nat) : (v &&& 2 ^ k ≠ 0) = (v.testBit k = true) := by
  rw [Nat.and_two_pow]
  cases h : v.testBit k
  · simp
  · simp [(pow_pos (by norm_num : (0 : ℕ) < 2) k).ne']

@[simp] lemma and_mask128 (v : Nat) : (v &&& 128 ≠ 0) = (v.testBit 7 = true) := by
  rw [show (128 : Nat) = 2 ^ 7 by norm_num]
  exact and_mask_ne v 7

@[simp] lemma and_mask64 (v : Nat) : (v &&& 64 ≠ 0) = (v.testBit 6 = true) := by
  rw [show (64 : Nat) = 2 ^ 6 by norm_num]
  exact and_mask_ne v 6

@[simp] lemma and_mask32 (v : Nat) : (v &&& 32 ≠ 0) = (v.testBit 5 = true) := by
  rw [show (32 : Nat) = 2 ^ 5 by norm_num]
  exact and_mask_ne v 5

@[simp] lemma and_mask16 (v : Nat) : (v &&& 16 ≠ 0) = (v.testBit 4 = true) := by
  rw [show (16 : Nat) = 2 ^ 4 by norm_num]
  exact and_mask_ne v 4

@[simp] lemma and_mask8 (v : Nat) : (v &&& 8 ≠ 0) = (v.testBit 3 = true) := by
  rw [show (8 : Nat) = 2 ^ 3 by norm_num]
  exact and_mask_ne v 3

@[simp] lemma and_mask4 (v : Nat) : (v &&& 4 ≠ 0) = (v.testBit 2 = true) := by
  rw [show (4 : Nat) = 2 ^ 2 by norm_num]
  exact and_mask_ne v 2

@[simp] lemma and_mask2 (v : Nat) : (v &&& 2 ≠ 0) = (v.testBit 1 = true) := by
  rw [show (2 : Nat) = 2 ^ 1 by norm_num]
  exact and_mask_ne v 1

@[simp] lemma and_mask1 (v : Nat) : (v &&& 1 ≠ 0) = (v.testBit 0 = true) := by
  rw [show (1 : Nat) = 2 ^ 0 by norm_num]
  exact and_mask_ne v 0

/-- A bit pulse (855 or 1710) passes add_pulse unchanged. -/
lemma add_pulse_bit (c : Prop) [Decidable c] :
    tape_waveform_add_pulse
        (if c then TAPE_BIT1_PULSE_TSTATES else TAPE_BIT0_PULSE_TSTATES)
      = [if c then 1710 else 855] := by
  by_cases h : c <;>
    simp [tape_waveform_add_pulse, h, TAPE_BIT1_PULSE_TSTATES, TAPE_BIT0_PULSE_TSTATES]

/-- One byte with no pending silence emits its spec-side 16 pulses. -/
lemma emitByte_spec (v : Nat) : emitByte v 0 = (specBytePulses v, 0) := by
  simp only [emitByte, emitBitsLoop]
  simp [add_pulse_bit, specBytePulses, List.range_succ]

/-- The byte loop with no pending silence emits the spec-side data pulses. -/
lemma emitDataBytes_spec (data : List Nat) :
    emitDataBytes data 0 = (specDataPulses data, 0) := by
  induction data with
  | nil => rfl
  | cons b rest ih => simp [emitDataBytes, emitByte_spec, ih, specDataPulses]

/-- A pending pause does not change an empty pulse list. -/
lemma foldHead_zero (l : List Nat) : foldHead 0 l = l := by
  cases l <;> simp [foldHead]

/-- foldHead distributes over a nonempty replicate prefix. -/
lemma foldHead_replicate (p n v : Nat) (rest : List Nat) :
    foldHead p (List.replicate (n + 1) v ++ rest) = (v + p) :: (List.replicate n v ++ rest) := by
  rw [List.replicate_succ]
  rfl

/-- One block emits the spec-side pulses and leaves its pause pending. -/
lemma emitBlock_spec (b : TapeBlock) (pending : Nat) (h : pending ≤ 3500000000) :
    emitBlock b pending =
      (foldHead pending
          (List.replicate (if b.data.head? = some 0 then 8063 else 3223) 2168
            ++ 667 :: 735 :: specDataPulses b.data),
       b.pause_ms * 3500) := by
  simp only [emitBlock, TAPE_HEADER_PILOT_COUNT, TAPE_DATA_PILOT_COUNT]
  by_cases hh : b.data.head? = some 0
  · rw [if_pos hh, show (8063 : Nat) = 8062 + 1 from rfl,
      emitPilots_pending 8062 pending h, emitDataBytes_spec, tape_pause_to_tstates_eq,
      show TAPE_SYNC_FIRST_PULSE_TSTATES = 667 from rfl,
      show TAPE_SYNC_SECOND_PULSE_TSTATES = 735 from rfl,
      foldHead_replicate]
    simp only [Prod.mk.injEq, Nat.add_zero, Nat.zero_add,
      add_pulse_of_le 667 (by norm_num) (by norm_num),
      add_pulse_of_le 735 (by norm_num) (by norm_num),
      List.cons_append, List.append_assoc, List.singleton_append, List.nil_append]
  · rw [if_neg hh, show (3223 : Nat) = 3222 + 1 from rfl,
      emitPilots_pending 3222 pending h, emitDataBytes_spec, tape_pause_to_tstates_eq,
      show TAPE_SYNC_FIRST_PULSE_TSTATES = 667 from rfl,
      show TAPE_SYNC_SECOND_PULSE_TSTATES = 735 from rfl,
      foldHead_replicate]
    simp only [Prod.mk.injEq, Nat.add_zero, Nat.zero_add,
      add_pulse_of_le 667 (by norm_num) (by norm_num),
      add_pulse_of_le 735 (by norm_num) (by norm_num),
      List.cons_append, List.append_assoc, List.singleton_append, List.nil_append]

/-- The block loop refines the spec-side waveform when pauses stay below the
uint32 pulse cap. -/
lemma synthBlocks_spec (blocks : List TapeBlock) :
    ∀ pending, (∀ b ∈ blocks, b.pause_ms ≤ 1000000) → pending ≤ 3500000000 →
      synthBlocks blocks pending = waveformSpecGo blocks pending := by
  induction blocks with
  | nil => intro pending _ _; rfl
  | cons b rest ih =>
    intro pending hb hp
    have hbb : b.pause_ms ≤ 1000000 := hb b (by simp)
    have hrest : ∀ x ∈ rest, x.pause_ms ≤ 1000000 := fun x hx => hb x (by simp [hx])
    have hnext : b.pause_ms * 3500 ≤ 3500000000 := by omega
    simp only [synthBlocks, waveformSpecGo, emitBlock_spec b pending hp]
    rw [ih (b.pause_ms * 3500) hrest hnext]

/-- Each spec-side byte contributes 16 pulses. -/
lemma specBytePulses_length (v : Nat) : (specBytePulses v).length = 16 := by
  simp [specBytePulses, List.range_succ]

/-- The spec-side data pulses number 16 per payload byte. -/
lemma specDataPulses_length (data : List Nat) :
    (specDataPulses data).length = 16 * data.length := by
  induction data with
  | nil => rfl
  | cons b rest ih =>
    simp [specDataPulses, specBytePulses_length] at ih ⊢
    omega

/-- Every spec-side byte pulse is 855 or 1710. -/
lemma specBytePulses_mem (v d : Nat) (hd : d ∈ specBytePulses v) :
    d = 855 ∨ d = 1710 := by
  simp only [specBytePulses, List.mem_flatMap, List.mem_range] at hd
  obtain ⟨i, _, hmem⟩ := hd
  simp only [List.mem_cons, List.mem_singleton, List.not_mem_nil, or_false] at hmem
  rcases hmem with h | h <;> rw [h] <;> by_cases hb : v.testBit (7 - i) <;> simp [hb]

/-- Every spec-side data pulse is 855 or 1710. -/
lemma specDataPulses_mem (data : List Nat) (d : Nat) (hd : d ∈ specDataPulses data) :
    d = 855 ∨ d = 1710 := by
  simp only [specDataPulses, List.mem_flatMap] at hd
  obtain ⟨b, _, hmem⟩ := hd
  exact specBytePulses_mem b d hmem

/-- C8: TAP waveform synthesis emits, per block, pilot pulses of 2168 T-states
(8063 of them when the first payload byte is 0x00, else 3223), sync pulses of
667 and 735 T-states, then per payload bit MSB-first two equal pulses of 855
(bit 0) or 1710 (bit 1) T-states, with the previous block's pause folded into
the following pulse (the refinement holds whenever every pause is at most
1000000 ms, below the uint32 pulse cap); in particular a 19-byte block whose
first byte is 0x00 yields exactly 8063 pilot pulses, the sync pair, and 304
data pulses each equal to 855 or 1710. -/
theorem c8_waveform_synthesis :
    (∀ blocks : List TapeBlock, (∀ b ∈ blocks, b.pause_ms ≤ 1000000) →
      tape_generate_waveform_from_image blocks = waveformSpec blocks)
    ∧ (∀ (data : List Nat) (p : Nat), data.length = 19 → data.head? = some 0 →
        tape_generate_waveform_from_image [⟨data, p⟩] =
          List.replicate 8063 2168 ++ 667 :: 735 :: specDataPulses data
        ∧ (specDataPulses data).length = 304
        ∧ ∀ d ∈ specDataPulses data, d = 855 ∨ d = 1710) := by
  constructor
  · intro blocks h
    exact synthBlocks_spec blocks 0 h (by norm_num)
  · intro data p hlen hhead
    refine ⟨?_, ?_, fun d hd => specDataPulses_mem data d hd⟩
    · show synthBlocks [⟨data, p⟩] 0 = _
      have hb := emitBlock_spec ⟨data, p⟩ 0 (by norm_num)
      simp only [synthBlocks, hb, foldHead_zero, List.append_nil, hhead,
        eq_self_iff_true, if_true]
    · rw [specDataPulses_length, hlen]

/-- Witness for C8: the concrete 19-byte header block. -/
theorem c8_waveform_synthesis_witness :
    c8data.length = 19 ∧ c8data.head? = some 0 ∧
    (tape_generate_waveform_from_image [⟨c8data, 1000⟩] =
        List.replicate 8063 2168 ++ 667 :: 735 :: specDataPulses c8data
      ∧ (specDataPulses c8data).length = 304
      ∧ ∀ d ∈ specDataPulses c8data, d = 855 ∨ d = 1710) :=
  ⟨by decide, by decide, c8_waveform_synthesis.2 c8data 1000 (by decide) (by decide)⟩

/-! ### C9: pulse decoding lemmas -/

/-- takeWhile over a satisfying replicate stops at the first failing pulse. -/
lemma takeWhile_replicate_cons (q : Nat → Bool) (n a b : Nat) (l : List Nat)
    (ha : q a = true) (hb : q b = false) :
    List.takeWhile q (List.replicate n a ++ b :: l) = List.replicate n a := by
  induction n with
  | zero => simp [List.takeWhile_cons, hb]
  | succ n ih => simp [List.replicate_succ, List.takeWhile_cons, ha, ih]

/-- dropWhile over a satisfying replicate stops at the first failing pulse. -/
lemma dropWhile_replicate_cons (q : Nat → Bool) (n a b : Nat) (l : List Nat)
    (ha : q a = true) (hb : q b = false) :
    List.dropWhile q (List.replicate n a ++ b :: l) = b :: l := by
  induction n with
  | zero => simp [List.dropWhile_cons, hb]
  | succ n ih => simp [List.replicate_succ, List.dropWhile_cons, ha, ih]

/-- The pilot search finds a leading pilot run of at least 100 pulses. -/
lemma findPilotRun_found (N : Nat) (hN : 100 ≤ N) (b : Nat)
    (hb : pilotMatch b = false) (l : List Nat) :
    findPilotRun (List.replicate N 2168 ++ b :: l)
      = some (List.replicate N 2168, b :: l) := by
  obtain ⟨M, rfl⟩ : ∃ M, N = M + 1 := ⟨N - 1, by omega⟩
  have hpm : pilotMatch 2168 = true := by decide
  have htake := takeWhile_replicate_cons pilotMatch (M + 1) 2168 b l hpm hb
  have hdrop := dropWhile_replicate_cons pilotMatch (M + 1) 2168 b l hpm hb
  rw [List.replicate_succ] at htake hdrop ⊢
  rw [List.cons_append] at htake hdrop ⊢
  unfold findPilotRun
  rw [List.length_cons]
  simp only [findPilotRunAux]
  rw [if_pos hpm, htake, hdrop]
  rw [if_pos (by simp [List.length_replicate]; omega)]

/-- Averaging a prefix of a 2168 pilot run gives exactly 2168. -/
lemma decodeScale_aux (N s : Nat) (hs : 0 < s) (hsN : s ≤ N) :
    ((((List.replicate N 2168).take s).sum : Nat) : ℚ) / (s : ℚ) = 2168 := by
  rw [List.take_replicate, Nat.min_eq_left hsN, List.sum_replicate, smul_eq_mul]
  push_cast
  rw [mul_comm, mul_div_assoc, div_self (by exact_mod_cast hs.ne' : (s : ℚ) ≠ 0), mul_one]

/-- An exact pilot run decodes to scale 1. -/
lemma decodeScale_replicate (N : Nat) (h : 100 ≤ N) :
    decodeScale (List.replicate N 2168) = 1 := by
  simp only [decodeScale, List.length_replicate]
  rw [if_pos (by omega : 0 < N)]
  by_cases h4 : 4096 < N
  · rw [if_pos h4, if_neg (by norm_num : ¬ (4096 = 0)),
      decodeScale_aux N 4096 (by norm_num) (by omega),
      if_pos (by norm_num : (0 : ℚ) < 2168)]
    norm_num [TAPE_PILOT_PULSE_TSTATES]
  · rw [if_neg h4, if_neg (by omega : ¬ (N = 0)),
      decodeScale_aux N N (by omega) le_rfl,
      if_pos (by norm_num : (0 : ℚ) < 2168)]
    norm_num [TAPE_PILOT_PULSE_TSTATES]

/-- At scale 1 every reference stays at its base value. -/
lemma scaleReference_one (base : Nat) (hb : 0 < base) : scaleReference base 1 = base := by
  simp only [scaleReference, mul_one]
  have hf : ⌊(base : ℚ) + 1 / 2⌋ = (base : ℤ) := by
    rw [Int.floor_eq_iff]
    constructor
    · push_cast
      linarith
    · push_cast
      linarith
  rw [hf, if_neg (by omega : ¬ ((base : ℤ) ≤ 0))]
  omega

/-- A clean pair of 855 pulses classifies as a zero bit. -/
lemma classify_zero_pair : classifyPair 855 1710 855 855 = some false := by decide

/-- A clean pair of 1710 pulses classifies as a one bit. -/
lemma classify_one_pair : classifyPair 855 1710 1710 1710 = some true := by decide

/-- flatMap after mapping successor re-indexes the generating function. -/
lemma flatMap_map_succ (f : Nat → List Nat) (l : List Nat) :
    (l.map Nat.succ).flatMap f = l.flatMap (fun i => f (i + 1)) := by
  induction l with
  | nil => rfl
  | cons a l ih => simp [ih]

/-- ORing bit r then the bits below r is ORing the bits below r + 1. -/
lemma or_mod_two_pow_succ_true (acc v r : Nat) (h : v.testBit r = true) :
    acc ||| 1 <<< r ||| v % 2 ^ r = acc ||| v % 2 ^ (r + 1) := by
  apply Nat.eq_of_testBit_eq
  intro i
  simp only [Nat.testBit_or, Nat.testBit_mod_two_pow, Nat.shiftLeft_eq, one_mul]
  by_cases hir : i = r
  · subst hir
    simp [Nat.testBit_two_pow_self, h, Nat.lt_irrefl, Nat.lt_succ_self]
  · rw [Nat.testBit_two_pow_of_ne (fun hrr => hir hrr.symm)]
    by_cases hlt : i < r
    · simp [hlt, show i < r + 1 by omega]
    · simp [hlt, show ¬ (i < r + 1) by omega]

/-- A zero bit at r leaves the modulus step unchanged. -/
lemma mod_two_pow_succ_false (v r : Nat) (h : v.testBit r = false) :
    v % 2 ^ (r + 1) = v % 2 ^ r := by
  apply Nat.eq_of_testBit_eq
  intro i
  simp only [Nat.testBit_mod_two_pow]
  by_cases hir : i = r
  · subst hir
    simp [h]
  · by_cases hlt : i < r
    · simp [hlt, show i < r + 1 by omega]
    · simp [hlt, show ¬ (i < r + 1) by omega]

/-- One clean 1710 pair steps the bit loop and sets bit r. -/
lemma decodeByte_step_one (acc r : Nat) (rest : List Nat) :
    decodeByte 855 1710 acc (r + 1) (1710 :: 1710 :: rest)
      = decodeByte 855 1710 (acc ||| 1 <<< r) r rest := by
  simp [decodeByte, classify_one_pair]

/-- One clean 855 pair steps the bit loop and leaves the value unchanged. -/
lemma decodeByte_step_zero (acc r : Nat) (rest : List Nat) :
    decodeByte 855 1710 acc (r + 1) (855 :: 855 :: rest)
      = decodeByte 855 1710 acc r rest := by
  simp [decodeByte, classify_zero_pair]

/-- Decoding r synthesized bit pairs ORs the low r bits of the byte into the
accumulator. -/
lemma decodeByte_bits (v : Nat) :
    ∀ r acc tail, decodeByte 855 1710 acc r
        (((List.range r).flatMap fun i =>
          [if v.testBit (r - 1 - i) then 1710 else 855,
           if v.testBit (r - 1 - i) then 1710 else 855]) ++ tail)
      = some (acc ||| v % 2 ^ r, tail) := by
  intro r
  induction r with
  | zero =>
    intro acc tail
    simp [decodeByte, Nat.mod_one, Nat.or_zero]
  | succ r ih =>
    intro acc tail
    rw [List.range_succ_eq_map, List.flatMap_cons, flatMap_map_succ]
    simp only [Nat.add_sub_cancel, Nat.sub_zero]
    have hfn : (fun i => [if v.testBit (r - (i + 1)) then 1710 else 855,
        if v.testBit (r - (i + 1)) then 1710 else 855])
        = (fun i => [if v.testBit (r - 1 - i) then 1710 else 855,
        if v.testBit (r - 1 - i) then 1710 else 855]) := by
      funext i
      rw [Nat.sub_sub, Nat.add_comm 1 i]
    rw [hfn]
    cases hb : v.testBit r
    · simp only [hb, show ((false = true) : Prop) = False from by simp, if_false,
        List.cons_append, List.nil_append]
      rw [decodeByte_step_zero, ih acc tail, mod_two_pow_succ_false v r hb]
    · simp only [hb, show ((true = true) : Prop) = True from by simp, if_true,
        List.cons_append, List.nil_append]
      rw [decodeByte_step_one, ih (acc ||| 1 <<< r) tail,
        or_mod_two_pow_succ_true acc v r hb]

/-- Decoding the 16 pulses synthesized for a byte recovers the byte. -/
lemma decodeByte_specBytePulses (v : Nat) (hv : v < 256) (tail : List Nat) :
    decodeByte 855 1710 0 8 (specBytePulses v ++ tail) = some (v, tail) := by
  have h := decodeByte_bits v 8 0 tail
  rw [Nat.mod_eq_of_lt (show v < 2 ^ 8 from hv), Nat.zero_or] at h
  exact h

/-- Decoding the synthesized pulses of a payload recovers every byte. -/
lemma decodeBytes_spec (data : List Nat) (h : ∀ b ∈ data, b < 256) :
    decodeBytes 855 1710 data.length (specDataPulses data) = some data := by
  induction data with
  | nil => rfl
  | cons b rest ih =>
    have hb : b < 256 := h b (by simp)
    have hrest : ∀ x ∈ rest, x < 256 := fun x hx => h x (by simp [hx])
    show decodeBytes 855 1710 (rest.length + 1) (specDataPulses (b :: rest)) = _
    rw [show specDataPulses (b :: rest) = specBytePulses b ++ specDataPulses rest from rfl]
    simp only [decodeBytes, decodeByte_specBytePulses b hb]
    rw [ih hrest]
    rfl

/-- C9: for every well-formed TAP block (a non-empty payload of bytes with a
pause), synthesizing the waveform with tape_generate_waveform_from_image and
feeding the pulse durations to tape_decode_pulses_to_block recovers exactly
the original payload bytes (and the supplied pause). -/
theorem c9_synth_then_decode (data : List Nat) (p : Nat)
    (h1 : data ≠ []) (h2 : ∀ b ∈ data, b < 256) :
    tape_decode_pulses_to_block (tape_generate_waveform_from_image [⟨data, p⟩]) p
      = some (data, p) := by
  have hwave : tape_generate_waveform_from_image [⟨data, p⟩] =
      List.replicate (if data.head? = some 0 then 8063 else 3223) 2168
        ++ 667 :: 735 :: specDataPulses data := by
    show synthBlocks [⟨data, p⟩] 0 = _
    have hb := emitBlock_spec ⟨data, p⟩ 0 (by norm_num)
    simp only [synthBlocks, hb, foldHead_zero, List.append_nil]
  rw [hwave]
  have hN100 : 100 ≤ (if data.head? = some 0 then 8063 else 3223) := by
    split <;> norm_num
  have h667 : pilotMatch 667 = false := by decide
  have hL : 0 < data.length := List.length_pos.mpr h1
  have hlen := specDataPulses_length data
  simp only [tape_decode_pulses_to_block]
  rw [if_neg (by simp)]
  rw [findPilotRun_found _ hN100 667 h667]
  simp only [decodeScale_replicate _ hN100,
    show TAPE_SYNC_FIRST_PULSE_TSTATES = 667 from rfl,
    show TAPE_SYNC_SECOND_PULSE_TSTATES = 735 from rfl,
    show TAPE_BIT0_PULSE_TSTATES = 855 from rfl,
    show TAPE_BIT1_PULSE_TSTATES = 1710 from rfl,
    scaleReference_one 667 (by norm_num), scaleReference_one 735 (by norm_num),
    scaleReference_one 855 (by norm_num), scaleReference_one 1710 (by norm_num)]
  rw [if_pos (by decide :
    (tape_duration_matches 667 667 (tape_duration_tolerance 667) &&
     tape_duration_matches 735 735 (tape_duration_tolerance 735)) = true)]
  rw [hlen]
  rw [show 16 * data.length - 16 * data.length % 2 = 16 * data.length from by omega]
  rw [if_neg (show ¬ (16 * data.length = 0) from by omega)]
  rw [show 16 * data.length / 2 - 16 * data.length / 2 % 8 = 8 * data.length from by omega]
  rw [if_neg (show ¬ (8 * data.length = 0) from by omega)]
  rw [show 8 * data.length / 8 = data.length from by omega,
    show 8 * data.length * 2 = 16 * data.length from by omega]
  rw [List.take_of_length_le (le_of_eq hlen)]
  rw [decodeBytes_spec data h2]
  rfl

/-- Witness for C9: the one-byte payload 0x00 with a 1000 ms pause. -/
theorem c9_synth_then_decode_witness :
    ([0] : List Nat) ≠ [] ∧ (∀ b ∈ ([0] : List Nat), b < 256) ∧
    tape_decode_pulses_to_block (tape_generate_waveform_from_image [⟨[0], 1000⟩]) 1000
      = some ([0], 1000) :=
  ⟨by decide, by decide, c9_synth_then_decode [0] 1000 (by decide) (by decide)⟩

/-! ### C10: TZX loader lemmas -/

/-- Reassembling the two little-endian halves recovers a 16-bit value. -/
lemma lo_hi_recombine (n : Nat) (h : n < 65536) :
    n % 256 ||| ((n >>> 8) % 256) <<< 8 = n := by
  show n % 2 ^ 8 ||| ((n >>> 8) % 2 ^ 8) <<< 8 = n
  apply Nat.eq_of_testBit_eq
  intro i
  simp only [Nat.testBit_or, Nat.testBit_shiftLeft, Nat.testBit_mod_two_pow,
    Nat.testBit_shiftRight]
  by_cases h8 : i < 8
  · simp [h8, show ¬ (8 ≤ i) by omega]
  · by_cases h16 : i < 16
    · simp [h8, show 8 ≤ i by omega, show i - 8 < 8 by omega,
        show 8 + (i - 8) = i by omega]
    · have hni : n.testBit i = false := by
        apply Nat.testBit_lt_two_pow
        calc n < 65536 := h
          _ = 2 ^ 16 := by norm_num
          _ ≤ 2 ^ i := Nat.pow_le_pow_right (by norm_num) (by omega)
      simp [h8, show 8 ≤ i by omega, show ¬ (i - 8 < 8) by omega, hni]

/-- Each encoded block takes at least one byte. -/
lemma tzxEncodeBlocks_length_ge (bs : List TapeBlock) :
    bs.length ≤ (tzxEncodeBlocks bs).length := by
  induction bs with
  | nil => simp [tzxEncodeBlocks]
  | cons b rest ih =>
    simp only [tzxEncodeBlocks, List.flatMap_cons, List.length_append,
      List.length_cons] at ih ⊢
    simp only [tzxEncodeBlock, List.length_cons]
    omega

/-- The header processing of tape_load_tzx: a valid signature plus two
version bytes hands the remaining bytes to the block loop. -/
lemma tape_load_tzx_header (v0 v1 : Nat) (tail : List Nat) :
    tape_load_tzx (tzxSignature ++ v0 :: v1 :: tail) = tzxBlocksAux tail.length tail := by
  show tape_load_tzx
      (0x5A :: 0x58 :: 0x54 :: 0x61 :: 0x70 :: 0x65 :: 0x21 :: 0x1A :: v0 :: v1 :: tail) = _
  simp only [tape_load_tzx]
  rw [if_neg (by simp only [List.length_cons]; omega)]
  rw [if_pos (by simp [tzxSignature])]
  simp [List.drop_succ_cons]

/-- The block loop maps a canonically encoded prefix to its blocks and
continues on the suffix with the remaining fuel. -/
lemma tzxBlocksAux_encode (bs : List TapeBlock) :
    ∀ fuel suffix, (∀ b ∈ bs, b.pause_ms < 65536 ∧ b.data.length < 65536) →
    tzxBlocksAux (fuel + bs.length) (tzxEncodeBlocks bs ++ suffix)
      = (tzxBlocksAux fuel suffix).map (fun l => bs ++ l) := by
  induction bs with
  | nil =>
    intro fuel suffix _
    simp only [tzxEncodeBlocks, List.flatMap_nil, List.nil_append, List.length_nil,
      Nat.add_zero]
    cases h : tzxBlocksAux fuel suffix <;> simp [h, Except.map]
  | cons b rest ih =>
    intro fuel suffix hv
    have hb := hv b (by simp)
    have hrest : ∀ x ∈ rest, x.pause_ms < 65536 ∧ x.data.length < 65536 :=
      fun x hx => hv x (by simp [hx])
    rw [show tzxEncodeBlocks (b :: rest) = tzxEncodeBlock b ++ tzxEncodeBlocks rest from rfl,
      show tzxEncodeBlock b = 0x10 :: b.pause_ms % 256 :: (b.pause_ms >>> 8) % 256 ::
        b.data.length % 256 :: (b.data.length >>> 8) % 256 :: b.data from rfl,
      show fuel + (b :: rest).length = (fuel + rest.length) + 1 from by
        simp [List.length_cons]
        omega]
    simp only [List.cons_append, List.append_assoc]
    simp only [tzxBlocksAux]
    rw [if_pos trivial, lo_hi_recombine b.data.length hb.2, lo_hi_recombine b.pause_ms hb.1]
    rw [if_neg (show ¬ ((b.data ++ (tzxEncodeBlocks rest ++ suffix)).length < b.data.length)
      from by simp only [List.length_append]; omega)]
    rw [List.take_left, List.drop_left, ih fuel suffix hrest]
    cases h : tzxBlocksAux fuel suffix <;> simp [h, Except.map]

/-- C10 counterexample: two TZX streams whose offending 0x30 block sits at
different file offsets (byte 10 and byte 15) produce the same error value;
the failure diagnostic of tape_load_tzx interpolates only the block id (and
the file path), so it cannot report the file offset the claim requires. -/
theorem c10_counterexample :
    tape_load_tzx (tzxSignature ++ [1, 20, 0x30])
        = .error (.unsupportedBlock 0x30)
      ∧ tape_load_tzx (tzxSignature ++ [1, 20, 0x10, 0x00, 0x00, 0x00, 0x00, 0x30])
        = .error (.unsupportedBlock 0x30)
      ∧ (tzxSignature ++ [1, 20, 0x30]).length
          ≠ (tzxSignature ++ [1, 20, 0x10, 0x00, 0x00, 0x00, 0x00, 0x30]).length :=
  ⟨rfl, rfl, by decide⟩

/-- C10 (amended): after a valid header and any canonically encoded 0x10
blocks, a block whose id is not 0x10 makes tape_load_tzx fail with the
unsupported-block error carrying that id (the diagnostic names the id but no
file offset), and a stream of only 0x10 blocks loads successfully; so only
block id 0x10 is accepted. -/
theorem c10_tzx_unsupported_block :
    (∀ (pre : List TapeBlock) (id : Nat) (rest : List Nat) (v0 v1 : Nat),
        (∀ b ∈ pre, b.pause_ms < 65536 ∧ b.data.length < 65536) →
        id ≠ 0x10 →
        tape_load_tzx (tzxSignature ++ v0 :: v1 :: (tzxEncodeBlocks pre ++ id :: rest))
          = .error (.unsupportedBlock id))
    ∧ (∀ (pre : List TapeBlock) (v0 v1 : Nat),
        (∀ b ∈ pre, b.pause_ms < 65536 ∧ b.data.length < 65536) →
        tape_load_tzx (tzxSignature ++ v0 :: v1 :: tzxEncodeBlocks pre) = .ok pre) := by
  constructor
  · intro pre id rest v0 v1 hpre hid
    rw [tape_load_tzx_header]
    have hge := tzxEncodeBlocks_length_ge pre
    obtain ⟨f, hf⟩ : ∃ f, (tzxEncodeBlocks pre ++ id :: rest).length = (f + 1) + pre.length :=
      ⟨(tzxEncodeBlocks pre).length + rest.length - pre.length, by
        simp only [List.length_append, List.length_cons]
        omega⟩
    rw [hf, tzxBlocksAux_encode pre (f + 1) (id :: rest) hpre]
    simp only [tzxBlocksAux]
    rw [if_neg hid]
    rfl
  · intro pre v0 v1 hpre
    rw [tape_load_tzx_header]
    have hge := tzxEncodeBlocks_length_ge pre
    obtain ⟨f, hf⟩ : ∃ f, (tzxEncodeBlocks pre).length = f + pre.length :=
      ⟨(tzxEncodeBlocks pre).length - pre.length, by omega⟩
    have henc := tzxBlocksAux_encode pre f [] hpre
    rw [List.append_nil] at henc
    rw [hf, henc]
    simp [tzxBlocksAux, Except.map]

/-- Witness for C10: one well-formed block then an unsupported id 0x30. -/
theorem c10_tzx_unsupported_block_witness :
    (∀ b ∈ ([⟨[0xAB], 100⟩] : List TapeBlock),
      b.pause_ms < 65536 ∧ b.data.length < 65536) ∧
    (0x30 : Nat) ≠ 0x10 ∧
    tape_load_tzx
        (tzxSignature ++ 1 :: 20 :: (tzxEncodeBlocks [⟨[0xAB], 100⟩] ++ 0x30 :: []))
      = .error (.unsupportedBlock 0x30) :=
  ⟨by decide, by decide,
    c10_tzx_unsupported_block.1 [⟨[0xAB], 100⟩] 0x30 [] 1 20 (by decide) (by decide)⟩

end Spec2Proof
